import Mathlib

/-!
# WAV container reader (`src/bin/main.cpp`, class `WavFileReader`)

A shallow embedding of the reader: the `std::fstream` member is an explicit
state (file contents, get position, the three iostate bits, `gcount()` and the
`exceptions()` mask), C++ exceptions are the error side of `Except`, and the
member functions are functions on that state.

Modelling conventions
* a file is the list of its bytes; reading never produces a device error, so
  `badbit` is only ever set if a state already carries it;
* `m_formatHeader` is filled by a raw 16-byte copy; its fields are the values a
  little-endian host (the x86-64 / arm64 targets of the `.so` / `.dylib` build)
  sees in that memory;
* offsets passed to `seekg` in this program are unsigned, so the model seeks
  forward only; a forward seek on a file succeeds even past the end.
-/

namespace WavReader

/-- One octet of the file. -/
abbrev Byte := Fin 256

/-! ## Exceptions -/

/-- The `what()` texts of the exceptions thrown by the reader. -/
inductive What
  /-- "Audio filename is empty" -/
  | filenameEmpty
  /-- "Failed to open the specified audio file." -/
  | openFailed
  /-- "Invalid file header, tag RIFF is expected." -/
  | riffExpected
  /-- "Invalid file header, tag WAVE is expected." -/
  | waveExpected
  /-- "Invalid file header, tag fmt  is expected." -/
  | fmtExpected
  /-- "Currently the data chunk must directly follow the fmt chunk." -/
  | dataMustFollow
  /-- "Unexpected end of file, before any audio data can be read." -/
  | prematureEnd
  /-- "Unexpected end of file or error when reading audio file." -/
  | unexpectedEnd
  deriving DecidableEq, Repr

/-- The exception types that occur: `std::invalid_argument`,
`std::runtime_error` and `std::ios_base::failure`. -/
inductive Exn
  | invalid_argument (what : What)
  | runtime_error (what : What)
  | ios_failure
  deriving DecidableEq, Repr

/-- The error taxonomy of the specification. -/
inductive ErrorKind
  | InvalidArgument
  | MalformedHeader
  | UnsupportedLayout
  | PrematureEnd
  deriving DecidableEq, Repr

/-- The specification's name for each exception the constructor can throw
(section 7 of the specification); a bare stream failure has none. -/
def Exn.kind : Exn → Option ErrorKind
  | .invalid_argument _ => some .InvalidArgument
  | .runtime_error .riffExpected => some .MalformedHeader
  | .runtime_error .waveExpected => some .MalformedHeader
  | .runtime_error .fmtExpected => some .MalformedHeader
  | .runtime_error .unexpectedEnd => some .MalformedHeader
  | .runtime_error .dataMustFollow => some .UnsupportedLayout
  | .runtime_error .prematureEnd => some .PrematureEnd
  | .runtime_error _ => none
  | .ios_failure => none

/-! ## The file stream -/

/-- State of `std::fstream m_fs` once a file is attached. -/
structure FStream where
  /-- contents of the file -/
  src : List Byte
  /-- get position of the file buffer -/
  pos : Nat
  eofbit : Bool
  failbit : Bool
  badbit : Bool
  /-- value of `gcount()` -/
  gcount : Nat
  /-- `exceptions()` mask, bit by bit -/
  exc_eofbit : Bool
  exc_failbit : Bool
  exc_badbit : Bool
  deriving DecidableEq, Repr

namespace FStream

/-- `good()`: no state bit is set. -/
def good (s : FStream) : Bool := !s.eofbit && !s.failbit && !s.badbit

/-- `eof()`. -/
def eof (s : FStream) : Bool := s.eofbit

/-- `fail()`: `failbit` or `badbit`. -/
def fail (s : FStream) : Bool := s.failbit || s.badbit

/-- `clear(state)`: installs the state bits and throws `ios_base::failure` when
one of them is in the `exceptions()` mask. -/
def clear (s : FStream) (e f b : Bool) : Except Exn FStream :=
  if (e && s.exc_eofbit) || (f && s.exc_failbit) || (b && s.exc_badbit) then
    .error .ios_failure
  else
    .ok { s with eofbit := e, failbit := f, badbit := b }

/-- `setstate(state)` is `clear(rdstate() | state)`. -/
def setstate (s : FStream) (e f b : Bool) : Except Exn FStream :=
  s.clear (s.eofbit || e) (s.failbit || f) (s.badbit || b)

/-- `exceptions(mask)`: installs the mask, then `clear(rdstate())`. -/
def exceptions (s : FStream) (e f b : Bool) : Except Exn FStream :=
  clear { s with exc_eofbit := e, exc_failbit := f, exc_badbit := b }
    s.eofbit s.failbit s.badbit

/-- `read(buf, n)`, an unformatted input function. `gcount` is reset, the sentry
requires `good()` and otherwise sets `failbit`; then up to `n` bytes are
extracted, and if fewer than `n` were available `eofbit | failbit` is set.
Returns the stream and the bytes stored at the start of the buffer. -/
def read (s : FStream) (n : Nat) : Except Exn (FStream × List Byte) :=
  if s.good then
    let data := (s.src.drop s.pos).take n
    let s1 := { s with pos := s.pos + data.length, gcount := data.length }
    if data.length < n then
      match s1.setstate true true false with
      | .error e => .error e
      | .ok s2 => .ok (s2, data)
    else
      .ok (s1, data)
  else
    match setstate { s with gcount := 0 } false true false with
    | .error e => .error e
    | .ok s1 => .ok (s1, [])

/-- `seekg(off, std::ios_base::cur)` for an offset `off ≥ 0`: clears `eofbit`,
the sentry requires `good()` and otherwise sets `failbit`; the file position
moves forward by `off` (also past the end of the file). `gcount` is kept. -/
def seekg (s : FStream) (off : Nat) : Except Exn FStream :=
  match s.clear false s.failbit s.badbit with
  | .error e => .error e
  | .ok s1 =>
    if s1.good then .ok { s1 with pos := s1.pos + off }
    else s1.setstate false true false

/-- A default-constructed `std::fstream` on which `open(name, binary | in)`
was called: attached to the contents when the file can be opened, and in the
failed state otherwise. The `exceptions()` mask is `goodbit`. -/
def openFile (file : Option (List Byte)) : FStream :=
  match file with
  | some bytes =>
    { src := bytes, pos := 0, eofbit := false, failbit := false, badbit := false,
      gcount := 0, exc_eofbit := false, exc_failbit := false, exc_badbit := false }
  | none =>
    { src := [], pos := 0, eofbit := false, failbit := true, badbit := false,
      gcount := 0, exc_eofbit := false, exc_failbit := false, exc_badbit := false }

end FStream

/-! ## The reader -/

/-- Raw-memory view of `struct WAVEFORMAT` (16 bytes, no padding). -/
structure WAVEFORMAT where
  FormatTag : Nat
  Channels : Nat
  SamplesPerSec : Nat
  AvgBytesPerSec : Nat
  BlockAlign : Nat
  BitsPerSample : Nat
  deriving DecidableEq, Repr

/-- Byte `i` of a buffer (0 where the buffer was not written). -/
def byteAt (buf : List Byte) (i : Nat) : Nat := (buf.getD i 0).val

/-- Value of a `uint16_t` stored at offset `off` of a little-endian memory. -/
def load16 (mem : List Byte) (off : Nat) : Nat :=
  byteAt mem off + 256 * byteAt mem (off + 1)

/-- Value of a `uint32_t` stored at offset `off` of a little-endian memory. -/
def load32 (mem : List Byte) (off : Nat) : Nat :=
  byteAt mem off + 256 * byteAt mem (off + 1) + 65536 * byteAt mem (off + 2)
    + 16777216 * byteAt mem (off + 3)

/-- The struct whose 16 bytes of storage hold `mem`: field offsets
0, 2, 4, 8, 12, 14. -/
def WAVEFORMAT.ofBytes (mem : List Byte) : WAVEFORMAT :=
  { FormatTag := load16 mem 0, Channels := load16 mem 2,
    SamplesPerSec := load32 mem 4, AvgBytesPerSec := load32 mem 8,
    BlockAlign := load16 mem 12, BitsPerSample := load16 mem 14 }

/-- The data members of `class WavFileReader`. -/
structure WavFileReader where
  m_fs : FStream
  m_formatHeader : WAVEFORMAT
  deriving DecidableEq, Repr

def tagBufferSize : Nat := 4
def chunkTypeBufferSize : Nat := 4
def chunkSizeBufferSize : Nat := 4
/-- `sizeof(m_formatHeader)`, fixed by the `static_assert`. -/
def sizeofFormatHeader : Nat := 16

/-- The ASCII tag "RIFF". -/
def tagRIFF : List Byte := [0x52, 0x49, 0x46, 0x46]
/-- The ASCII tag "WAVE". -/
def tagWAVE : List Byte := [0x57, 0x41, 0x56, 0x45]
/-- The ASCII tag "fmt " (with the trailing blank). -/
def tagFmt : List Byte := [0x66, 0x6d, 0x74, 0x20]
/-- The ASCII tag "data". -/
def tagData : List Byte := [0x64, 0x61, 0x74, 0x61]

/-- The little-endian assembly at the end of `ReadChunkTypeAndSize`
(lines 136-139): shifts and ors of the four bytes, in `uint32_t`. -/
def chunkSizeOf (chunkSizeBuffer : List Byte) : Nat :=
  (((byteAt chunkSizeBuffer 3) <<< 24) % 2 ^ 32) |||
  (((byteAt chunkSizeBuffer 2) <<< 16) % 2 ^ 32) |||
  (((byteAt chunkSizeBuffer 1) <<< 8) % 2 ^ 32) |||
  (byteAt chunkSizeBuffer 0)

/-- `ReadChunkTypeAndSize`: reads the 4-byte chunk type and the 4-byte size,
and assembles the size from its bytes. -/
def ReadChunkTypeAndSize (m_fs : FStream) : Except Exn (FStream × List Byte × Nat) :=
  match m_fs.read chunkTypeBufferSize with
  | .error e => .error e
  | .ok (fs1, chunkType) =>
    match fs1.read chunkSizeBufferSize with
    | .error e => .error e
    | .ok (fs2, chunkSizeBuffer) =>
      .ok (fs2, chunkType, chunkSizeOf chunkSizeBuffer)

/-- The `try` block of `GetFormatFromWavFile` (lines 82-116). -/
def headerBody (m_fs : FStream) : Except Exn (FStream × WAVEFORMAT) :=
  -- Checks the RIFF tag
  match m_fs.read tagBufferSize with
  | .error e => .error e
  | .ok (fs1, tag) =>
  if tag != tagRIFF then .error (.runtime_error .riffExpected) else
  -- The next is the RIFF chunk size, ignore now.
  match fs1.read chunkSizeBufferSize with
  | .error e => .error e
  | .ok (fs2, _) =>
  -- Checks the WAVE tag in the wave header.
  match fs2.read chunkTypeBufferSize with
  | .error e => .error e
  | .ok (fs3, chunkType) =>
  if chunkType != tagWAVE then .error (.runtime_error .waveExpected) else
  -- The next chunk must be the fmt chunk.
  match ReadChunkTypeAndSize fs3 with
  | .error e => .error e
  | .ok (fs4, chunkType, chunkSize) =>
  if chunkType != tagFmt then .error (.runtime_error .fmtExpected) else
  -- Reads format data.
  match fs4.read sizeofFormatHeader with
  | .error e => .error e
  | .ok (fs5, raw) =>
  -- Skips the rest of format data.
  match (if chunkSize > sizeofFormatHeader then fs5.seekg (chunkSize - sizeofFormatHeader)
         else .ok fs5 : Except Exn FStream) with
  | .error e => .error e
  | .ok fs6 =>
  -- The next must be the data chunk.
  match ReadChunkTypeAndSize fs6 with
  | .error e => .error e
  | .ok (fs7, chunkType, chunkSize) =>
  match (if chunkType != tagData then
           match fs7.seekg chunkSize with
           | .error e => .error e
           | .ok fs8 =>
             match ReadChunkTypeAndSize fs8 with
             | .error e => .error e
             | .ok (fs9, chunkType2, chunkSize2) =>
               if chunkType2 != tagData then .error (.runtime_error .dataMustFollow)
               else .ok (fs9, chunkSize2)
         else .ok (fs7, chunkSize) : Except Exn (FStream × Nat)) with
  | .error e => .error e
  | .ok (fs10, chunkSize) =>
  if fs10.eof && chunkSize > 0 then .error (.runtime_error .prematureEnd)
  else .ok (fs10, WAVEFORMAT.ofBytes raw)

/-- `GetFormatFromWavFile`: sets the stream to throw on `failbit | badbit`,
runs the header checks, turns an `ios_base::failure` into the
"Unexpected end of file or error" `runtime_error`, and switches the stream
back to not throwing. -/
def GetFormatFromWavFile (m_fs : FStream) : Except Exn WavFileReader :=
  match m_fs.exceptions false true true with
  | .error e => .error e
  | .ok fs0 =>
    match headerBody fs0 with
    | .error .ios_failure => .error (.runtime_error .unexpectedEnd)
    | .error e => .error e
    | .ok (fs1, hdr) =>
      match fs1.exceptions false false false with
      | .error e => .error e
      | .ok fs2 => .ok { m_fs := fs2, m_formatHeader := hdr }

/-- The constructor `WavFileReader(audioFileName)`. The file system is the map
from a path to the contents of the file that can be opened for reading there. -/
def WavFileReader.new (files : String → Option (List Byte)) (audioFileName : String) :
    Except Exn WavFileReader :=
  if audioFileName.isEmpty then .error (.invalid_argument .filenameEmpty) else
  let m_fs := FStream.openFile (files audioFileName)
  if !m_fs.good then .error (.invalid_argument .openFailed) else
  -- Get audio format from the file header.
  GetFormatFromWavFile m_fs

/-- The constructor from the point where the file was opened with contents
`bytes`. -/
def openSource (bytes : List Byte) : Except Exn WavFileReader :=
  GetFormatFromWavFile (FStream.openFile (some bytes))

/-- The cast `(int)` of a non-negative `std::streamsize`: reduction to 32 bits,
read as a two-complement number. -/
def toInt32 (n : Nat) : Int :=
  if n % 2 ^ 32 < 2 ^ 31 then ((n % 2 ^ 32 : Nat) : Int) else ((n % 2 ^ 32 : Nat) : Int) - 2 ^ 32

/-- `Read(dataBuffer, size)`; `size` is a `uint32_t`. Returns the reader, the
bytes the call stored at the start of `dataBuffer`, and the `int` result. -/
def Read (r : WavFileReader) (size : Nat) : Except Exn (WavFileReader × List Byte × Int) :=
  if r.m_fs.eof then
    -- returns 0 to indicate that the stream reaches end.
    .ok (r, [], 0)
  else
    match r.m_fs.read size with
    | .error e => .error e
    | .ok (fs1, data) =>
      if !fs1.eof && !fs1.good then
        -- returns 0 to close the stream on read error.
        .ok ({ r with m_fs := fs1 }, data, 0)
      else
        -- returns the number of bytes that have been read.
        .ok ({ r with m_fs := fs1 }, data, toInt32 fs1.gcount)

/-- A sequence of `Read` calls with the given sizes: the final reader and, per
call, the bytes stored and the value returned. -/
def readSeq (r : WavFileReader) : List Nat → Except Exn (WavFileReader × List (List Byte × Int))
  | [] => .ok (r, [])
  | k :: ks =>
    match Read r k with
    | .error e => .error e
    | .ok (r1, data, n) =>
      match readSeq r1 ks with
      | .error e => .error e
      | .ok (r2, outs) => .ok (r2, (data, n) :: outs)

/-- The loop of `main` (lines 199-204) with buffer size `K`: the concatenation
of the bytes obtained by successive `Read(buf, K)` calls up to the first call
that returns 0. `none` when the loop has not ended after `fuel` calls or a
call threw. -/
def streamAll : Nat → WavFileReader → Nat → Option (List Byte)
  | 0, _, _ => none
  | fuel + 1, r, K =>
    match Read r K with
    | .error _ => none
    | .ok (r1, data, n) =>
      if n = 0 then some []
      else (streamAll fuel r1 K).map (fun rest => data ++ rest)

/-! ## Stream states met while parsing and while streaming -/

/-- The stream while the header is parsed: no state bit set, throwing on
`failbit | badbit`. -/
def hdrStream (src : List Byte) (pos g : Nat) : FStream :=
  { src := src, pos := pos, eofbit := false, failbit := false, badbit := false,
    gcount := g, exc_eofbit := false, exc_failbit := true, exc_badbit := true }

/-- The stream of a constructed reader: not throwing, and either no state bit
set (`e = false`) or `eofbit | failbit` set by a short read (`e = true`). -/
def strStream (src : List Byte) (pos : Nat) (e : Bool) (g : Nat) : FStream :=
  { src := src, pos := pos, eofbit := e, failbit := e, badbit := false,
    gcount := g, exc_eofbit := false, exc_failbit := false, exc_badbit := false }

/-- Bytes `[pos, pos + n)` of the file (fewer where the file ends before). -/
def slice (src : List Byte) (pos n : Nat) : List Byte := (src.drop pos).take n

/-- Offset of the chunk header that follows the fmt chunk: 36, plus the
declared fmt size beyond 16. -/
def afterFmt (src : List Byte) : Nat := 36 + (chunkSizeOf (slice src 16 4) - 16)

/-- Offset of the chunk header that follows the chunk found at `afterFmt`. -/
def afterSkip (src : List Byte) : Nat :=
  afterFmt src + 8 + chunkSizeOf (slice src (afterFmt src + 4) 4)

/-- Closed form of the header checks as a function of the file contents: the
exception, or the offset at which the get position is left together with the
format header. Proved equal to `headerBody` in `headerBody_eq`. -/
def headerOutcome (src : List Byte) : Except Exn (Nat × WAVEFORMAT) :=
  if src.length < 4 then .error .ios_failure else
  if slice src 0 4 ≠ tagRIFF then .error (.runtime_error .riffExpected) else
  if src.length < 12 then .error .ios_failure else
  if slice src 8 4 ≠ tagWAVE then .error (.runtime_error .waveExpected) else
  if src.length < 20 then .error .ios_failure else
  if slice src 12 4 ≠ tagFmt then .error (.runtime_error .fmtExpected) else
  if src.length < 36 then .error .ios_failure else
  if src.length < afterFmt src + 8 then .error .ios_failure else
  if slice src (afterFmt src) 4 = tagData then
    .ok (afterFmt src + 8, WAVEFORMAT.ofBytes (slice src 20 16)) else
  if src.length < afterSkip src + 8 then .error .ios_failure else
  if slice src (afterSkip src) 4 ≠ tagData then .error (.runtime_error .dataMustFollow) else
  .ok (afterSkip src + 8, WAVEFORMAT.ofBytes (slice src 20 16))

/-- The states of the reader on the file `src` after construction: the stream
has the form `strStream`, the get position lies within the file, and `eofbit`
is only set at the end of the file. -/
def Streaming (src : List Byte) (r : WavFileReader) : Prop :=
  ∃ pos e g, r.m_fs = strStream src pos e g ∧ pos ≤ src.length ∧ (e = true → pos = src.length)

/-- The outputs of a sequence of `Read` calls. -/
def readOuts (r : WavFileReader) (ks : List Nat) : Except Exn (List (List Byte × Int)) :=
  match readSeq r ks with
  | .error e => .error e
  | .ok (_, outs) => .ok outs

/-! ## Writing WAV files (used to state the claims) -/

/-- Little-endian encoding of `n` in 4 bytes. -/
def le32 (n : Nat) : List Byte :=
  [Fin.ofNat n, Fin.ofNat (n / 256), Fin.ofNat (n / 65536), Fin.ofNat (n / 16777216)]

/-- The 12-byte RIFF/WAVE prefix followed by a fmt chunk header declaring
`fmtSize` and the 16 format bytes `f`; `x` are bytes 4..7. -/
def wavPrefix (x : List Byte) (fmtSize : Nat) (f : List Byte) : List Byte :=
  tagRIFF ++ x ++ tagWAVE ++ tagFmt ++ le32 fmtSize ++ f

/-- A chunk: tag, declared size, payload. -/
def chunk (tag : List Byte) (size : Nat) (payload : List Byte) : List Byte :=
  tag ++ le32 size ++ payload

/-- The minimal WAV file with format bytes `f` and sample data `p`. -/
def minimalWav (x f p : List Byte) : List Byte :=
  wavPrefix x 16 f ++ chunk tagData p.length p

/-- A file that starts with "RIFF", four bytes `x`, "WAVE", a fmt chunk header
with size field `sz`, the 16 format bytes `f` and the `e` further bytes that the
size field declares, followed by `t`. -/
def withPrefix (x sz f e t : List Byte) : List Byte :=
  tagRIFF ++ (x ++ (tagWAVE ++ (tagFmt ++ (sz ++ (f ++ (e ++ t))))))

/-- The size declared by the chunk header that ends at offset `c`. -/
def declaredSize (src : List Byte) (c : Nat) : Nat := chunkSizeOf (slice src (c - 4) 4)

/-- The data chunk of a file whose data chunk header ends at offset `c`: the
bytes that follow the header, as many as the header declares. -/
def dataChunkBytes (src : List Byte) (c : Nat) : List Byte := slice src c (declaredSize src c)

/-- Format bytes of 16 kHz, mono, 16-bit PCM, used as a sample input. -/
def pcm16k : List Byte := [1, 0, 1, 0, 0x80, 0x3e, 0, 0, 0, 0x7d, 0, 0, 2, 0, 16, 0]

/-- A minimal WAV file with one chunk `tag`, declaring `S` bytes and holding
`q`, inserted between the fmt chunk and the data chunk. -/
def oneExtraWav (x f tag : List Byte) (S : Nat) (q p : List Byte) : List Byte :=
  wavPrefix x 16 f ++ chunk tag S q ++ chunk tagData p.length p

/-- A minimal WAV file whose fmt chunk declares `16 + |e|` bytes and carries
the bytes `e` after the 16 format bytes. -/
def paddedWav (x f e p : List Byte) : List Byte :=
  wavPrefix x (16 + e.length) f ++ e ++ chunk tagData p.length p

/-- A RIFF/WAVE/fmt prefix followed by a complete chunk `tag1`, a second chunk
header `tag2`, `sz2`, and anything. -/
def twoExtraWav (x f e tag1 : List Byte) (S1 : Nat) (q tag2 sz2 rest : List Byte) : List Byte :=
  wavPrefix x (16 + e.length) f ++ e ++ chunk tag1 S1 q ++ tag2 ++ sz2 ++ rest

/-- The ASCII tag "LIST". -/
def tagLIST : List Byte := [0x4c, 0x49, 0x53, 0x54]

/-- A 47-byte minimal WAV file with three payload bytes. -/
def sampleWav : List Byte := minimalWav [0, 0, 0, 0] pcm16k [9, 8, 7]

/-- The reader constructed from `sampleWav`. -/
def sampleReader : WavFileReader :=
  { m_fs := strStream sampleWav 44 false 4, m_formatHeader := WAVEFORMAT.ofBytes pcm16k }

/-- The file `sampleWav` with the tag "RIFX" in place of "RIFF". -/
def rifxInput : List Byte := [0x52, 0x49, 0x46, 0x58] ++ sampleWav.drop 4

/-- A 44-byte file: a well-formed header whose data chunk declares 2 bytes,
with the end of the file right after the data chunk header. -/
def c8Input : List Byte := wavPrefix [0, 0, 0, 0] 16 pcm16k ++ tagData ++ le32 2

/-- A file whose data chunk declares 1 byte and is followed by 2 bytes. -/
def c2Input : List Byte := wavPrefix [0, 0, 0, 0] 16 pcm16k ++ chunk tagData 1 [9, 8]

/-- The reader on `c2Input` after one `Read` of one byte. -/
def c2ReaderNext : WavFileReader :=
  { m_fs := strStream c2Input 45 false 1, m_formatHeader := WAVEFORMAT.ofBytes pcm16k }

/-- A reader at the start of a two-byte stream. -/
def twoByteReader : WavFileReader :=
  { m_fs := strStream [1, 2] 0 false 0, m_formatHeader := WAVEFORMAT.ofBytes pcm16k }

/-- The reader `twoByteReader` after a `Read` that asked for more than two bytes. -/
def twoByteReaderDone : WavFileReader :=
  { m_fs := strStream [1, 2] 2 true 2, m_formatHeader := WAVEFORMAT.ofBytes pcm16k }

/-- The reader constructed from `c2Input`. -/
def c2Reader : WavFileReader :=
  { m_fs := strStream c2Input 44 false 4, m_formatHeader := WAVEFORMAT.ofBytes pcm16k }



/-- The observable outcome of the constructor on a file: the exception, or
the get position and the format header of the reader. -/
def openOutcome (src : List Byte) : Except Exn (Nat × WAVEFORMAT) :=
  match openSource src with
  | .error e => .error e
  | .ok r => .ok (r.m_fs.pos, r.m_formatHeader)

/-- A file with the RIFF/WAVE prefix and a fmt chunk header declaring `s`,
followed by `t`. -/
def fmtSizeWav (x : List Byte) (s : Nat) (t : List Byte) : List Byte :=
  tagRIFF ++ x ++ tagWAVE ++ tagFmt ++ le32 s ++ t

/-- The file `sampleWav` with other bytes at offsets 4..7. -/
def sampleWavOtherSize : List Byte := minimalWav [1, 2, 3, 4] pcm16k [9, 8, 7]

/-- A file system without any file. -/
def noFiles : String → Option (List Byte) := fun _ => none

/-- A file system with `sampleWav` at every path. -/
def sampleFiles : String → Option (List Byte) := fun _ => some sampleWav

/-- A payload of `2^31` zero bytes. -/
def bigPayload : List Byte := List.replicate (2 ^ 31) 0

/-- A minimal WAV file with `2^31` bytes of sample data. -/
def bigWav : List Byte := minimalWav [0, 0, 0, 0] pcm16k bigPayload

/-- The reader constructed from `bigWav`. -/
def bigReader : WavFileReader :=
  { m_fs := strStream bigWav 44 false 4, m_formatHeader := WAVEFORMAT.ofBytes pcm16k }

/-- The file `sampleWav` with the tag "WAVX" in place of "WAVE". -/
def wavxInput : List Byte := sampleWav.take 8 ++ [0x57, 0x41, 0x56, 0x58] ++ sampleWav.drop 12

/-- The file `sampleWav` with the tag "fmtx" in place of "fmt ". -/
def fmtxInput : List Byte := sampleWav.take 12 ++ [0x66, 0x6d, 0x74, 0x78] ++ sampleWav.drop 16

/-- The reader `sampleReader` after a `Read` of size 0. -/
def sampleReaderAfterZero : WavFileReader :=
  { m_fs := strStream sampleWav 44 false 0, m_formatHeader := WAVEFORMAT.ofBytes pcm16k }

/-- The reader on `sampleWav` after a `Read` that reached the end of the file. -/
def sampleReaderDone : WavFileReader :=
  { m_fs := strStream sampleWav 47 true 3, m_formatHeader := WAVEFORMAT.ofBytes pcm16k }

/-! ## Read errors -/

/-- A device error met by the file buffer during an input operation:
`istream::read` catches it and sets `badbit`. -/
def FStream.ioError (s : FStream) : FStream := { s with badbit := true }

/-- What happens to a constructed reader: a `Read` call of some size, or a
device error on its stream. -/
inductive ReaderEvent
  | read (size : Nat)
  | ioError
  deriving DecidableEq, Repr

/-- The reader after a sequence of `Read` calls and device errors. -/
def runEvents (r : WavFileReader) : List ReaderEvent → Except Exn WavFileReader
  | [] => .ok r
  | .read size :: evs =>
    match Read r size with
    | .error e => .error e
    | .ok (r1, _, _) => runEvents r1 evs
  | .ioError :: evs => runEvents { r with m_fs := r.m_fs.ioError } evs

/-- The test of line 50 on the stream a `Read` call leaves behind: the call
ended in a read error (`!eof() && !good()`). -/
def readError (r : WavFileReader) : Bool := !r.m_fs.eof && !r.m_fs.good

/-- A stream that does not throw, with any state bits. -/
def anyStream (src : List Byte) (pos : Nat) (e f b : Bool) (g : Nat) : FStream :=
  { src := src, pos := pos, eofbit := e, failbit := f, badbit := b, gcount := g,
    exc_eofbit := false, exc_failbit := false, exc_badbit := false }

/-- The states of the reader on the file `src` after construction when device
errors may occur: the stream does not throw, the get position lies within the
file, and `eofbit` is only set at the end of the file; `failbit` and `badbit`
are arbitrary. -/
def StreamingOrFailed (src : List Byte) (r : WavFileReader) : Prop :=
  ∃ pos e f b g, r.m_fs = anyStream src pos e f b g
    ∧ pos ≤ src.length ∧ (e = true → pos = src.length)

/-- The reader `sampleReader` after a device error. -/
def sampleReaderFailed : WavFileReader :=
  { m_fs := (strStream sampleWav 44 false 4).ioError,
    m_formatHeader := WAVEFORMAT.ofBytes pcm16k }

/-! ## The constructor with a record of its file operations -/

/-- The operations the reader performs on the file system and on its file:
`m_fs.open(path, ...)`, `m_fs.read(buf, n)` and `m_fs.seekg(off, cur)`. -/
inductive FsEvent
  | openCall (path : String)
  | readCall (n : Nat)
  | seekCall (off : Nat)
  deriving DecidableEq, Repr

/-- A result together with the file operations performed so far, in order. The
record is kept when an exception is thrown. -/
abbrev Traced (α : Type) := Except Exn α × List FsEvent

/-- `m_fs.open(audioFileName, mode)`, recorded. -/
def FStream.openFileT (files : String → Option (List Byte)) (audioFileName : String)
    (log : List FsEvent) : FStream × List FsEvent :=
  (FStream.openFile (files audioFileName), log ++ [.openCall audioFileName])

/-- `read(buf, n)`, recorded. -/
def FStream.readT (s : FStream) (n : Nat) (log : List FsEvent) : Traced (FStream × List Byte) :=
  (s.read n, log ++ [.readCall n])

/-- `seekg(off, std::ios_base::cur)`, recorded. -/
def FStream.seekgT (s : FStream) (off : Nat) (log : List FsEvent) : Traced FStream :=
  (s.seekg off, log ++ [.seekCall off])

/-- `ReadChunkTypeAndSize` with its two reads recorded. -/
def ReadChunkTypeAndSizeT (m_fs : FStream) (log : List FsEvent) :
    Traced (FStream × List Byte × Nat) :=
  match m_fs.readT chunkTypeBufferSize log with
  | (.error e, l1) => (.error e, l1)
  | (.ok (fs1, chunkType), l1) =>
    match fs1.readT chunkSizeBufferSize l1 with
    | (.error e, l2) => (.error e, l2)
    | (.ok (fs2, chunkSizeBuffer), l2) => (.ok (fs2, chunkType, chunkSizeOf chunkSizeBuffer), l2)

/-- The `try` block of `GetFormatFromWavFile` (lines 82-116) with every read
and seek recorded. -/
def headerBodyT (m_fs : FStream) (log : List FsEvent) : Traced (FStream × WAVEFORMAT) :=
  match m_fs.readT tagBufferSize log with
  | (.error e, l1) => (.error e, l1)
  | (.ok (fs1, tag), l1) =>
  if tag != tagRIFF then (.error (.runtime_error .riffExpected), l1) else
  match fs1.readT chunkSizeBufferSize l1 with
  | (.error e, l2) => (.error e, l2)
  | (.ok (fs2, _), l2) =>
  match fs2.readT chunkTypeBufferSize l2 with
  | (.error e, l3) => (.error e, l3)
  | (.ok (fs3, chunkType), l3) =>
  if chunkType != tagWAVE then (.error (.runtime_error .waveExpected), l3) else
  match ReadChunkTypeAndSizeT fs3 l3 with
  | (.error e, l4) => (.error e, l4)
  | (.ok (fs4, chunkType, chunkSize), l4) =>
  if chunkType != tagFmt then (.error (.runtime_error .fmtExpected), l4) else
  match fs4.readT sizeofFormatHeader l4 with
  | (.error e, l5) => (.error e, l5)
  | (.ok (fs5, raw), l5) =>
  match (if chunkSize > sizeofFormatHeader then fs5.seekgT (chunkSize - sizeofFormatHeader) l5
         else (.ok fs5, l5) : Traced FStream) with
  | (.error e, l6) => (.error e, l6)
  | (.ok fs6, l6) =>
  match ReadChunkTypeAndSizeT fs6 l6 with
  | (.error e, l7) => (.error e, l7)
  | (.ok (fs7, chunkType, chunkSize), l7) =>
  match (if chunkType != tagData then
           match fs7.seekgT chunkSize l7 with
           | (.error e, l8) => (.error e, l8)
           | (.ok fs8, l8) =>
             match ReadChunkTypeAndSizeT fs8 l8 with
             | (.error e, l9) => (.error e, l9)
             | (.ok (fs9, chunkType2, chunkSize2), l9) =>
               if chunkType2 != tagData then (.error (.runtime_error .dataMustFollow), l9)
               else (.ok (fs9, chunkSize2), l9)
         else (.ok (fs7, chunkSize), l7) : Traced (FStream × Nat)) with
  | (.error e, l10) => (.error e, l10)
  | (.ok (fs10, chunkSize), l10) =>
  if fs10.eof && chunkSize > 0 then (.error (.runtime_error .prematureEnd), l10)
  else (.ok (fs10, WAVEFORMAT.ofBytes raw), l10)

/-- `GetFormatFromWavFile` with the file operations of the header checks
recorded; setting the `exceptions()` mask is no file operation. -/
def GetFormatFromWavFileT (m_fs : FStream) (log : List FsEvent) : Traced WavFileReader :=
  match m_fs.exceptions false true true with
  | .error e => (.error e, log)
  | .ok fs0 =>
    match headerBodyT fs0 log with
    | (.error .ios_failure, l1) => (.error (.runtime_error .unexpectedEnd), l1)
    | (.error e, l1) => (.error e, l1)
    | (.ok (fs1, hdr), l1) =>
      match fs1.exceptions false false false with
      | .error e => (.error e, l1)
      | .ok fs2 => (.ok { m_fs := fs2, m_formatHeader := hdr }, l1)

/-- The constructor `WavFileReader(audioFileName)` with the record of the file
operations it performs, in the order of lines 32-41: the test of the name, then
`m_fs.open`, then the test of `good()`, then the header checks. -/
def WavFileReader.newTraced (files : String → Option (List Byte)) (audioFileName : String) :
    Traced WavFileReader :=
  if audioFileName.isEmpty then (.error (.invalid_argument .filenameEmpty), []) else
  match FStream.openFileT files audioFileName [] with
  | (m_fs, l1) =>
  if !m_fs.good then (.error (.invalid_argument .openFailed), l1) else
  -- Get audio format from the file header.
  GetFormatFromWavFileT m_fs l1

/-! ## Little-endian size fields -/

theorem byteAt_lt (buf : List Byte) (i : Nat) : byteAt buf i < 256 := (buf.getD i 0).isLt

/-- The shifts and ors of `ReadChunkTypeAndSize` compute the little-endian
value of the four bytes. -/
theorem chunkSizeOf_eq_load32 (buf : List Byte) : chunkSizeOf buf = load32 buf 0 := by
  have h0 := byteAt_lt buf 0
  have h1 := byteAt_lt buf 1
  have h2 := byteAt_lt buf 2
  have h3 := byteAt_lt buf 3
  simp only [chunkSizeOf, load32, Nat.shiftLeft_eq, Nat.zero_add]
  rw [Nat.mod_eq_of_lt (by omega), Nat.mod_eq_of_lt (by omega), Nat.mod_eq_of_lt (by omega)]
  have e1 : byteAt buf 3 * 2 ^ 24 ||| byteAt buf 2 * 2 ^ 16
      = 2 ^ 16 * (2 ^ 8 * byteAt buf 3 + byteAt buf 2) := by
    have := Nat.mul_add_lt_is_or (show byteAt buf 2 * 2 ^ 16 < 2 ^ 24 by omega) (byteAt buf 3)
    rw [show byteAt buf 3 * 2 ^ 24 = 2 ^ 24 * byteAt buf 3 by ring, ← this]; ring
  have e2 : 2 ^ 16 * (2 ^ 8 * byteAt buf 3 + byteAt buf 2) ||| byteAt buf 1 * 2 ^ 8
      = 2 ^ 8 * (2 ^ 8 * (2 ^ 8 * byteAt buf 3 + byteAt buf 2) + byteAt buf 1) := by
    have := Nat.mul_add_lt_is_or (show byteAt buf 1 * 2 ^ 8 < 2 ^ 16 by omega)
      (2 ^ 8 * byteAt buf 3 + byteAt buf 2)
    rw [← this]; ring
  have e3 := Nat.mul_add_lt_is_or (show byteAt buf 0 < 2 ^ 8 by omega)
      (2 ^ 8 * (2 ^ 8 * byteAt buf 3 + byteAt buf 2) + byteAt buf 1)
  rw [e1, e2, ← e3]; ring

theorem load32_le32 (n : Nat) (h : n < 2 ^ 32) : load32 (le32 n) 0 = n := by
  simp only [load32, le32, byteAt, List.getD_cons_zero, List.getD_cons_succ, Fin.ofNat]
  omega

theorem chunkSizeOf_le32 (n : Nat) (h : n < 2 ^ 32) : chunkSizeOf (le32 n) = n := by
  rw [chunkSizeOf_eq_load32, load32_le32 n h]

theorem length_le32 (n : Nat) : (le32 n).length = 4 := rfl

/-! ## The stream while the header is parsed -/

theorem drop_step {src a rest : List Byte} {pos n : Nat}
    (h : src.drop pos = a ++ rest) (ha : a.length = n) : src.drop (pos + n) = rest := by
  rw [← List.drop_drop, h, ← ha, List.drop_left]

theorem slice_of_drop {src a rest : List Byte} {pos n : Nat}
    (h : src.drop pos = a ++ rest) (ha : a.length = n) : slice src pos n = a := by
  rw [slice, h, ← ha, List.take_left]

theorem read_hdr_eq (src : List Byte) (pos g n : Nat) (hn : 0 < n) :
    (hdrStream src pos g).read n =
      if pos + n ≤ src.length then .ok (hdrStream src (pos + n) n, slice src pos n)
      else .error .ios_failure := by
  have hlen : ((src.drop pos).take n).length = min n (src.length - pos) := by
    simp [List.length_take, List.length_drop]
  by_cases h : pos + n ≤ src.length
  · have h1 : ((src.drop pos).take n).length = n := by rw [hlen]; omega
    simp [FStream.read, hdrStream, FStream.good, h, h1, slice]
  · have h1 : ((src.drop pos).take n).length < n := by rw [hlen]; omega
    simp only [FStream.read, hdrStream, FStream.good, h, if_false]
    simp [h1, FStream.setstate, FStream.clear]
    omega

theorem seekg_hdr (src : List Byte) (pos g off : Nat) :
    (hdrStream src pos g).seekg off = .ok (hdrStream src (pos + off) g) := by
  simp [FStream.seekg, hdrStream, FStream.good, FStream.clear]

theorem skip_hdr (src : List Byte) (pos g c : Nat) :
    (if c > 16 then (hdrStream src pos g).seekg (c - 16)
      else .ok (hdrStream src pos g) : Except Exn FStream)
      = .ok (hdrStream src (pos + (c - 16)) g) := by
  by_cases hc : c > 16
  · rw [if_pos hc, seekg_hdr]
  · rw [if_neg hc]
    have : c - 16 = 0 := by omega
    rw [this]; rfl

theorem ReadChunkTypeAndSize_hdr_eq (src : List Byte) (pos g : Nat) :
    ReadChunkTypeAndSize (hdrStream src pos g) =
      if pos + 8 ≤ src.length then
        .ok (hdrStream src (pos + 8) 4, slice src pos 4, chunkSizeOf (slice src (pos + 4) 4))
      else .error .ios_failure := by
  simp only [ReadChunkTypeAndSize, chunkTypeBufferSize, chunkSizeBufferSize,
    read_hdr_eq src pos g 4 (by omega)]
  by_cases h4 : pos + 4 ≤ src.length
  · simp only [h4, if_true, read_hdr_eq src (pos + 4) 4 4 (by omega)]
    by_cases h8 : pos + 8 ≤ src.length
    · have : pos + 4 + 4 ≤ src.length := by omega
      simp [h8, this, Nat.add_assoc]
    · have : ¬ pos + 4 + 4 ≤ src.length := by omega
      simp [h8, this]
  · have : ¬ pos + 8 ≤ src.length := by omega
    simp [h4, this]

/-- The header checks, run on the stream, agree with their closed form. -/
theorem headerBody_eq (src : List Byte) (g : Nat) :
    headerBody (hdrStream src 0 g) =
      match headerOutcome src with
      | .error e => .error e
      | .ok (c, hdr) => .ok (hdrStream src c 4, hdr) := by
  simp only [headerBody, headerOutcome, tagBufferSize, chunkSizeBufferSize, chunkTypeBufferSize,
    sizeofFormatHeader, read_hdr_eq src _ _ 4 (by omega), read_hdr_eq src _ _ 16 (by omega),
    ReadChunkTypeAndSize_hdr_eq, Nat.zero_add]
  by_cases h4 : src.length < 4
  · simp [h4, Nat.not_le.mpr h4]
  simp only [h4, Nat.not_lt.mp h4, if_true, if_false]
  by_cases hr : slice src 0 4 = tagRIFF
  swap
  · simp [hr]
  simp only [hr, bne_self_eq_false, Bool.false_eq_true, if_false, ne_eq, not_true_eq_false,
    read_hdr_eq src _ _ 4 (by omega)]
  by_cases h12 : src.length < 12
  · by_cases h8 : 4 + 4 ≤ src.length
    · simp [h12, h8, read_hdr_eq src _ _ 4 (show 0 < 4 by omega),
        show ¬ (12 ≤ src.length) by omega]
    · simp [h12, h8]
  simp only [h12, show 4 + 4 ≤ src.length by omega, if_true, if_false,
    read_hdr_eq src _ _ 4 (show 0 < 4 by omega), show 4 + 4 + 4 ≤ src.length by omega]
  by_cases hw : slice src 8 4 = tagWAVE
  swap
  · simp [hw]
  simp only [hw, bne_self_eq_false, Bool.false_eq_true, if_false, ne_eq, not_true_eq_false,
    ReadChunkTypeAndSize_hdr_eq, Nat.reduceAdd]
  by_cases h20 : src.length < 20
  · simp [h20, Nat.not_le.mpr h20]
  simp only [h20, Nat.not_lt.mp h20, if_true, if_false]
  by_cases hf : slice src 12 4 = tagFmt
  swap
  · simp [hf]
  simp only [hf, bne_self_eq_false, Bool.false_eq_true, if_false, ne_eq, not_true_eq_false,
    read_hdr_eq src _ _ 16 (show 0 < 16 by omega), Nat.reduceAdd]
  by_cases h36 : src.length < 36
  · simp [h36, Nat.not_le.mpr h36]
  simp only [h36, Nat.not_lt.mp h36, if_true, if_false, skip_hdr, ReadChunkTypeAndSize_hdr_eq]
  rw [show 36 + (chunkSizeOf (slice src 16 4) - 16) = afterFmt src from rfl]
  by_cases ha : src.length < afterFmt src + 8
  · simp [ha, Nat.not_le.mpr ha]
  simp only [ha, Nat.not_lt.mp ha, if_true, if_false]
  by_cases hd : slice src (afterFmt src) 4 = tagData
  · simp [hd, hdrStream, FStream.eof]
  simp only [hd, bne_iff_ne, ne_eq, not_false_eq_true, if_true, if_false, seekg_hdr,
    ReadChunkTypeAndSize_hdr_eq]
  rw [show afterFmt src + 8 + chunkSizeOf (slice src (afterFmt src + 4) 4) = afterSkip src
    from rfl]
  by_cases hs : src.length < afterSkip src + 8
  · simp [hs, Nat.not_le.mpr hs]
  simp only [hs, Nat.not_lt.mp hs, if_true, if_false]
  by_cases hd2 : slice src (afterSkip src) 4 = tagData
  · simp [hd2, hdrStream, FStream.eof]
  · simp [hd2]

/-- The constructor, from the opened file on, in terms of the closed form. -/
theorem openSource_eq (src : List Byte) :
    openSource src =
      match headerOutcome src with
      | .error .ios_failure => .error (.runtime_error .unexpectedEnd)
      | .error e => .error e
      | .ok (c, hdr) => .ok { m_fs := strStream src c false 4, m_formatHeader := hdr } := by
  have h0 : (FStream.openFile (some src)).exceptions false true true
      = .ok (hdrStream src 0 0) := rfl
  simp only [openSource, GetFormatFromWavFile, h0, headerBody_eq]
  cases h : headerOutcome src with
  | error e => cases e <;> rfl
  | ok v => rfl

/-- The constructor on a non-empty path at which a file can be opened is
`openSource` on the contents of that file. -/
theorem new_eq_openSource (files : String → Option (List Byte)) (audioFileName : String)
    (bytes : List Byte) (hname : audioFileName.isEmpty = false)
    (hfile : files audioFileName = some bytes) :
    WavFileReader.new files audioFileName = openSource bytes := by
  simp only [WavFileReader.new, hname, hfile, openSource]
  rfl

/-! ## Files with a well-formed RIFF/WAVE/fmt prefix -/

theorem withPrefix_facts (x sz f e t : List Byte) (hx : x.length = 4) (hsz : sz.length = 4)
    (hf : f.length = 16) (he : e.length = chunkSizeOf sz - 16) :
    (withPrefix x sz f e t).length = 36 + e.length + t.length
    ∧ slice (withPrefix x sz f e t) 0 4 = tagRIFF
    ∧ slice (withPrefix x sz f e t) 8 4 = tagWAVE
    ∧ slice (withPrefix x sz f e t) 12 4 = tagFmt
    ∧ slice (withPrefix x sz f e t) 20 16 = f
    ∧ afterFmt (withPrefix x sz f e t) = 36 + e.length
    ∧ (withPrefix x sz f e t).drop (36 + e.length) = t := by
  have h0 : (withPrefix x sz f e t).drop 0 = tagRIFF ++ (x ++ (tagWAVE ++ (tagFmt ++ (sz ++
      (f ++ (e ++ t)))))) := rfl
  have h4 := drop_step h0 (show tagRIFF.length = 4 from rfl)
  have h8 := drop_step h4 hx
  have h12 := drop_step h8 (show tagWAVE.length = 4 from rfl)
  have h16 := drop_step h12 (show tagFmt.length = 4 from rfl)
  have h20 := drop_step h16 hsz
  have h36 := drop_step h20 hf
  have h36e := drop_step h36 (rfl : e.length = e.length)
  have hs16 : slice (withPrefix x sz f e t) 16 4 = sz := slice_of_drop h16 hsz
  refine ⟨?_, slice_of_drop h0 rfl, slice_of_drop h8 rfl, slice_of_drop h12 rfl,
    slice_of_drop h20 hf, ?_, h36e⟩
  · simp only [withPrefix, List.length_append, hx, hsz, hf, tagRIFF, tagWAVE, tagFmt,
      List.length_cons, List.length_nil]
    omega
  · rw [afterFmt, hs16, he]

/-- Closed form of the header checks on a file with a well-formed prefix. -/
theorem headerOutcome_withPrefix (x sz f e t : List Byte) (hx : x.length = 4)
    (hsz : sz.length = 4) (hf : f.length = 16) (he : e.length = chunkSizeOf sz - 16) :
    headerOutcome (withPrefix x sz f e t) =
      if t.length < 8 then .error .ios_failure else
      if t.take 4 = tagData then .ok (44 + e.length, WAVEFORMAT.ofBytes f) else
      if t.length < 8 + chunkSizeOf (slice t 4 4) + 8 then .error .ios_failure else
      if slice t (8 + chunkSizeOf (slice t 4 4)) 4 ≠ tagData then
        .error (.runtime_error .dataMustFollow)
      else .ok (52 + e.length + chunkSizeOf (slice t 4 4), WAVEFORMAT.ofBytes f) := by
  obtain ⟨hlen, hR, hW, hF, hfm, haf, hdrop⟩ := withPrefix_facts x sz f e t hx hsz hf he
  have hsl : ∀ p n, slice (withPrefix x sz f e t) (36 + e.length + p) n = slice t p n := by
    intro p n
    rw [slice, ← List.drop_drop, hdrop, slice]
  have hsl0 : slice (withPrefix x sz f e t) (36 + e.length) 4 = t.take 4 := by
    have := hsl 0 4
    simpa [slice] using this
  have hsk : afterSkip (withPrefix x sz f e t)
      = 36 + e.length + (8 + chunkSizeOf (slice t 4 4)) := by
    rw [afterSkip, haf, hsl 4 4]; omega
  simp only [headerOutcome, hlen, hR, hW, hF, hfm, haf, hsk, hsl, hsl0, ne_eq,
    not_true_eq_false, if_false]
  have c1 : ¬ (36 + e.length + t.length < 4) := by omega
  have c2 : ¬ (36 + e.length + t.length < 12) := by omega
  have c3 : ¬ (36 + e.length + t.length < 20) := by omega
  have c4 : ¬ (36 + e.length + t.length < 36) := by omega
  simp only [c1, c2, c3, c4, if_false]
  by_cases h8 : t.length < 8
  · rw [if_pos (by omega), if_pos h8]
  rw [if_neg (by omega), if_neg h8]
  by_cases hd : t.take 4 = tagData
  · rw [if_pos hd, if_pos hd]
    congr 2
    omega
  rw [if_neg hd, if_neg hd]
  by_cases h2 : t.length < 8 + chunkSizeOf (slice t 4 4) + 8
  · rw [if_pos (by omega), if_pos h2]
  rw [if_neg (by omega), if_neg h2]
  by_cases hd2 : slice t (8 + chunkSizeOf (slice t 4 4)) 4 = tagData
  · simp only [hd2, not_true_eq_false, if_false]
    congr 2
    omega
  · simp only [hd2, not_false_eq_true, if_true]

theorem minimalWav_eq (x f p : List Byte) :
    minimalWav x f p = withPrefix x (le32 16) f [] (tagData ++ (le32 p.length ++ p)) := by
  simp [minimalWav, wavPrefix, chunk, withPrefix, List.append_assoc]

theorem chunkSizeOf_le32_16 : chunkSizeOf (le32 16) - 16 = 0 := by
  rw [chunkSizeOf_le32 16 (by norm_num)]

/-- Opening a minimal WAV file. -/
theorem openSource_minimalWav (x f p : List Byte) (hx : x.length = 4) (hf : f.length = 16) :
    openSource (minimalWav x f p) =
      .ok { m_fs := strStream (minimalWav x f p) 44 false 4,
            m_formatHeader := WAVEFORMAT.ofBytes f }
    ∧ (minimalWav x f p).drop 44 = p := by
  have hfacts := withPrefix_facts x (le32 16) f [] (tagData ++ (le32 p.length ++ p)) hx rfl hf
    (by rw [chunkSizeOf_le32_16]; rfl)
  constructor
  · rw [openSource_eq, minimalWav_eq, headerOutcome_withPrefix x (le32 16) f [] _ hx rfl hf
      (by rw [chunkSizeOf_le32_16]; rfl)]
    have h8 : ¬ ((tagData ++ (le32 p.length ++ p)).length < 8) := by
      simp [tagData, length_le32]
    have hd : (tagData ++ (le32 p.length ++ p)).take 4 = tagData := rfl
    rw [if_neg h8, if_pos hd]
    rfl
  · rw [minimalWav_eq]
    have h36 := hfacts.2.2.2.2.2.2
    have h44 := drop_step h36 (show tagData.length = 8 - 4 from rfl)
    have := drop_step h44 (length_le32 p.length)
    simpa using this

/-! ## The stream of a constructed reader -/

theorem length_slice (src : List Byte) (pos n : Nat) :
    (slice src pos n).length = min n (src.length - pos) := by
  simp [slice, List.length_take, List.length_drop]

/-- `Read` on the stream of a constructed reader. -/
theorem Read_str (src : List Byte) (pos : Nat) (e : Bool) (g : Nat) (hdr : WAVEFORMAT)
    (K : Nat) :
    Read { m_fs := strStream src pos e g, m_formatHeader := hdr } K =
      if e = true then .ok ({ m_fs := strStream src pos e g, m_formatHeader := hdr }, [], 0)
      else .ok ({ m_fs := strStream src (pos + (slice src pos K).length)
                    (decide ((slice src pos K).length < K)) (slice src pos K).length,
                  m_formatHeader := hdr },
                slice src pos K, toInt32 (slice src pos K).length) := by
  cases e with
  | true => simp [Read, strStream, FStream.eof]
  | false =>
    by_cases h : (slice src pos K).length < K
    · have h2 : src.length - pos < K := by rw [length_slice] at h; omega
      simp [Read, strStream, FStream.eof, FStream.read, FStream.good, FStream.setstate,
        FStream.clear, slice, h2]
    · have h2 : ¬ (src.length - pos < K) := by rw [length_slice] at h; omega
      simp [Read, strStream, FStream.eof, FStream.read, FStream.good, FStream.setstate,
        FStream.clear, slice, h2]


theorem toInt32_of_lt (m : Nat) (h : m < 2 ^ 31) : toInt32 m = (m : Int) := by
  unfold toInt32
  have : m % 2 ^ 32 = m := Nat.mod_eq_of_lt (by omega)
  rw [this, if_pos h]

theorem toInt32_eq_zero (m : Nat) (h : m < 2 ^ 32) : toInt32 m = 0 ↔ m = 0 := by
  unfold toInt32
  have : m % 2 ^ 32 = m := Nat.mod_eq_of_lt h
  rw [this]
  split <;> omega

theorem headerOutcome_ok (src : List Byte) (c : Nat) (hdr : WAVEFORMAT)
    (h : headerOutcome src = .ok (c, hdr)) : 44 ≤ c ∧ c ≤ src.length := by
  unfold headerOutcome at h
  have ha : 36 ≤ afterFmt src := by unfold afterFmt; omega
  have hs : afterFmt src + 8 ≤ afterSkip src := by unfold afterSkip; omega
  by_cases c1 : src.length < 4
  · rw [if_pos c1] at h; cases h
  rw [if_neg c1] at h
  by_cases c2 : slice src 0 4 ≠ tagRIFF
  · rw [if_pos c2] at h; cases h
  rw [if_neg c2] at h
  by_cases c3 : src.length < 12
  · rw [if_pos c3] at h; cases h
  rw [if_neg c3] at h
  by_cases c4 : slice src 8 4 ≠ tagWAVE
  · rw [if_pos c4] at h; cases h
  rw [if_neg c4] at h
  by_cases c5 : src.length < 20
  · rw [if_pos c5] at h; cases h
  rw [if_neg c5] at h
  by_cases c6 : slice src 12 4 ≠ tagFmt
  · rw [if_pos c6] at h; cases h
  rw [if_neg c6] at h
  by_cases c7 : src.length < 36
  · rw [if_pos c7] at h; cases h
  rw [if_neg c7] at h
  by_cases c8 : src.length < afterFmt src + 8
  · rw [if_pos c8] at h; cases h
  rw [if_neg c8] at h
  by_cases c9 : slice src (afterFmt src) 4 = tagData
  · rw [if_pos c9] at h
    simp only [Except.ok.injEq, Prod.mk.injEq] at h
    omega
  rw [if_neg c9] at h
  by_cases c10 : src.length < afterSkip src + 8
  · rw [if_pos c10] at h; cases h
  rw [if_neg c10] at h
  by_cases c11 : slice src (afterSkip src) 4 ≠ tagData
  · rw [if_pos c11] at h; cases h
  rw [if_neg c11] at h
  simp only [Except.ok.injEq, Prod.mk.injEq] at h
  omega

theorem openSource_ok (src : List Byte) (r : WavFileReader) (h : openSource src = .ok r) :
    ∃ c, headerOutcome src = .ok (c, r.m_formatHeader)
      ∧ r = { m_fs := strStream src c false 4, m_formatHeader := r.m_formatHeader }
      ∧ 44 ≤ c ∧ c ≤ src.length := by
  rw [openSource_eq] at h
  cases ho : headerOutcome src with
  | error e => rw [ho] at h; cases e <;> simp at h
  | ok v =>
    obtain ⟨c, hdr⟩ := v
    rw [ho] at h
    simp only [Except.ok.injEq] at h
    subst h
    exact ⟨c, rfl, rfl, headerOutcome_ok src c hdr ho⟩

theorem Streaming_open (src : List Byte) (r : WavFileReader) (h : openSource src = .ok r) :
    Streaming src r := by
  obtain ⟨c, _, hr, _, hc⟩ := openSource_ok src r h
  refine ⟨c, false, 4, ?_, hc, by simp⟩
  rw [hr]

theorem Streaming_Read (src : List Byte) (r : WavFileReader) (K : Nat) (h : Streaming src r) :
    ∃ r1 data n, Read r K = .ok (r1, data, n) ∧ Streaming src r1
      ∧ r1.m_formatHeader = r.m_formatHeader := by
  obtain ⟨pos, e, g, hfs, hpos, he⟩ := h
  obtain ⟨fs, hdr⟩ := r
  simp only at hfs
  subst hfs
  rw [Read_str]
  cases e with
  | true => exact ⟨_, _, _, rfl, ⟨pos, true, g, rfl, hpos, he⟩, rfl⟩
  | false =>
    refine ⟨_, _, _, rfl, ⟨_, _, _, rfl, ?_, ?_⟩, rfl⟩
    · rw [length_slice]; omega
    · rw [length_slice]; simp only [decide_eq_true_eq]; omega

theorem Streaming_readSeq (src : List Byte) (ks : List Nat) :
    ∀ r, Streaming src r → ∃ r1 outs, readSeq r ks = .ok (r1, outs) ∧ Streaming src r1
      ∧ r1.m_formatHeader = r.m_formatHeader := by
  induction ks with
  | nil => intro r h; exact ⟨r, [], rfl, h, rfl⟩
  | cons k ks ih =>
    intro r h
    obtain ⟨r1, data, n, hread, hs1, hh1⟩ := Streaming_Read src r k h
    obtain ⟨r2, outs, hseq, hs2, hh2⟩ := ih r1 hs1
    refine ⟨r2, (data, n) :: outs, ?_, hs2, hh2.trans hh1⟩
    simp only [readSeq, hread, hseq]

theorem readSeq_ok_Streaming (src : List Byte) (ks : List Nat) (r r1 : WavFileReader)
    (outs : List (List Byte × Int)) (h : Streaming src r) (hseq : readSeq r ks = .ok (r1, outs)) :
    Streaming src r1 := by
  obtain ⟨r2, outs2, hseq2, hs2, _⟩ := Streaming_readSeq src ks r h
  rw [hseq] at hseq2
  simp only [Except.ok.injEq, Prod.mk.injEq] at hseq2
  rw [hseq2.1]; exact hs2

theorem take_min_length (l : List Byte) (K : Nat) : l.take (min K l.length) = l.take K := by
  by_cases h : K ≤ l.length
  · rw [Nat.min_eq_left h]
  · have h2 : l.length ≤ K := by omega
    rw [Nat.min_eq_right h2, List.take_of_length_le h2, List.take_of_length_le (le_refl _)]

theorem slice_append_drop (src : List Byte) (pos K : Nat) :
    slice src pos K ++ src.drop (pos + (slice src pos K).length) = src.drop pos := by
  have h1 : src.drop (pos + (slice src pos K).length)
      = (src.drop pos).drop ((src.drop pos).take K).length := by
    rw [List.drop_drop]; rfl
  rw [h1, slice]
  by_cases h : K ≤ (src.drop pos).length
  · rw [List.length_take, Nat.min_eq_left h, List.take_append_drop]
  · have h2 : (src.drop pos).length ≤ K := by omega
    rw [List.take_of_length_le h2, List.drop_length, List.append_nil]

/-- The streaming loop delivers every byte from the get position to the end of
the file, and ends within `remaining + 1` calls. -/
theorem streamAll_str (src : List Byte) (hdr : WAVEFORMAT) (K : Nat) (hK1 : 1 ≤ K)
    (hK2 : K < 2 ^ 32) :
    ∀ fuel pos e g, pos ≤ src.length → (e = true → pos = src.length) →
      src.length - pos + 1 ≤ fuel →
      streamAll fuel { m_fs := strStream src pos e g, m_formatHeader := hdr } K
        = some (src.drop pos) := by
  intro fuel
  induction fuel with
  | zero => intro pos e g _ _ hf; omega
  | succ fuel ih =>
    intro pos e g hpos he hf
    rw [streamAll, Read_str]
    cases e with
    | true =>
      have : pos = src.length := he rfl
      simp [this]
    | false =>
      have hl := length_slice src pos K
      simp only [Bool.false_eq_true, if_false]
      by_cases hz : (slice src pos K).length = 0
      · have hn : toInt32 (slice src pos K).length = 0 := by rw [hz]; rfl
        have hp : pos = src.length := by rw [hl] at hz; omega
        rw [if_pos hn, hp, List.drop_length]
      · have hn : toInt32 (slice src pos K).length ≠ 0 := by
          rw [Ne, toInt32_eq_zero _ (by rw [hl]; omega)]; exact hz
        simp only [hn, if_false]
        rw [ih _ _ _ (by rw [hl]; omega) (by rw [hl]; simp only [decide_eq_true_eq]; omega)
          (by rw [hl]; omega)]
        simp only [Option.map_some']
        rw [slice_append_drop]

/-! ## Layouts, views and truncation -/

/-- Layout with the data chunk right after the fmt chunk. -/
theorem headerOutcome_direct (x sz f e dsz rest : List Byte) (hx : x.length = 4)
    (hsz : sz.length = 4) (hf : f.length = 16) (he : e.length = chunkSizeOf sz - 16)
    (hd : dsz.length = 4) :
    headerOutcome (withPrefix x sz f e (tagData ++ (dsz ++ rest)))
        = .ok (44 + e.length, WAVEFORMAT.ofBytes f)
      ∧ (withPrefix x sz f e (tagData ++ (dsz ++ rest))).drop (44 + e.length) = rest
      ∧ slice (withPrefix x sz f e (tagData ++ (dsz ++ rest))) (44 + e.length - 4) 4 = dsz := by
  have hfacts := withPrefix_facts x sz f e (tagData ++ (dsz ++ rest)) hx hsz hf he
  have h36 := hfacts.2.2.2.2.2.2
  have h40 := drop_step h36 (show tagData.length = 4 from rfl)
  have h44 := drop_step h40 hd
  refine ⟨?_, ?_, ?_⟩
  · rw [headerOutcome_withPrefix x sz f e _ hx hsz hf he]
    have h8 : ¬ ((tagData ++ (dsz ++ rest)).length < 8) := by
      simp [tagData, hd]
    have hd4 : (tagData ++ (dsz ++ rest)).take 4 = tagData := rfl
    rw [if_neg h8, if_pos hd4]
  · rw [show 44 + e.length = 36 + e.length + 4 + 4 by omega]; exact h44
  · rw [show 44 + e.length - 4 = 36 + e.length + 4 by omega]; exact slice_of_drop h40 hd

/-- Facts on a tail that starts with a complete chunk followed by a chunk header. -/
theorem tail_facts (tag sz1 q tag2 sz2 rest : List Byte) (ht : tag.length = 4)
    (hs1 : sz1.length = 4) (hq : q.length = chunkSizeOf sz1) (ht2 : tag2.length = 4)
    (hs2 : sz2.length = 4) :
    ¬ ((tag ++ (sz1 ++ (q ++ (tag2 ++ (sz2 ++ rest))))).length < 8)
      ∧ (tag ++ (sz1 ++ (q ++ (tag2 ++ (sz2 ++ rest))))).take 4 = tag
      ∧ slice (tag ++ (sz1 ++ (q ++ (tag2 ++ (sz2 ++ rest))))) 4 4 = sz1
      ∧ ¬ ((tag ++ (sz1 ++ (q ++ (tag2 ++ (sz2 ++ rest))))).length < 8 + chunkSizeOf sz1 + 8)
      ∧ slice (tag ++ (sz1 ++ (q ++ (tag2 ++ (sz2 ++ rest))))) (8 + chunkSizeOf sz1) 4 = tag2 := by
  have h0 : (tag ++ (sz1 ++ (q ++ (tag2 ++ (sz2 ++ rest))))).drop 0
      = tag ++ (sz1 ++ (q ++ (tag2 ++ (sz2 ++ rest)))) := rfl
  have h4 := drop_step h0 ht
  have h8 := drop_step h4 hs1
  have h8q := drop_step h8 hq
  refine ⟨?_, ?_, slice_of_drop h4 hs1, ?_, ?_⟩
  · simp only [List.length_append, ht, hs1]; omega
  · rw [← ht, List.take_left]
  · simp only [List.length_append, ht, hs1, hq, ht2, hs2]; omega
  · rw [show 8 + chunkSizeOf sz1 = 0 + 4 + 4 + chunkSizeOf sz1 by omega]
    exact slice_of_drop h8q ht2

/-- Layout with one chunk between the fmt chunk and the data chunk. -/
theorem headerOutcome_skip (x sz f e tag sz1 q dsz rest : List Byte) (hx : x.length = 4)
    (hsz : sz.length = 4) (hf : f.length = 16) (he : e.length = chunkSizeOf sz - 16)
    (ht : tag.length = 4) (hne : tag ≠ tagData) (hs1 : sz1.length = 4)
    (hq : q.length = chunkSizeOf sz1) (hd : dsz.length = 4) :
    headerOutcome (withPrefix x sz f e (tag ++ (sz1 ++ (q ++ (tagData ++ (dsz ++ rest))))))
        = .ok (52 + e.length + q.length, WAVEFORMAT.ofBytes f)
      ∧ (withPrefix x sz f e (tag ++ (sz1 ++ (q ++ (tagData ++ (dsz ++ rest)))))).drop
          (52 + e.length + q.length) = rest := by
  have hfacts := withPrefix_facts x sz f e (tag ++ (sz1 ++ (q ++ (tagData ++ (dsz ++ rest)))))
    hx hsz hf he
  obtain ⟨t8, ttag, tsz, tlen, ttag2⟩ := tail_facts tag sz1 q tagData dsz rest ht hs1 hq rfl hd
  constructor
  · rw [headerOutcome_withPrefix x sz f e _ hx hsz hf he, if_neg t8, ttag, if_neg hne, tsz,
      if_neg tlen, ttag2, if_neg (by simp), hq]
  · have h36 := hfacts.2.2.2.2.2.2
    have h := drop_step (drop_step (drop_step (drop_step (drop_step h36 ht) hs1) hq)
      (show tagData.length = 4 from rfl)) hd
    rw [show 52 + e.length + q.length = 36 + e.length + 4 + 4 + chunkSizeOf sz1 + 4 + 4 by omega]
    exact h

/-- Layout with two chunks other than data after the fmt chunk. -/
theorem headerOutcome_two (x sz f e tag sz1 q tag2 sz2 rest : List Byte) (hx : x.length = 4)
    (hsz : sz.length = 4) (hf : f.length = 16) (he : e.length = chunkSizeOf sz - 16)
    (ht : tag.length = 4) (hne : tag ≠ tagData) (hs1 : sz1.length = 4)
    (hq : q.length = chunkSizeOf sz1) (ht2 : tag2.length = 4) (hne2 : tag2 ≠ tagData)
    (hs2 : sz2.length = 4) :
    headerOutcome (withPrefix x sz f e (tag ++ (sz1 ++ (q ++ (tag2 ++ (sz2 ++ rest))))))
        = .error (.runtime_error .dataMustFollow) := by
  obtain ⟨t8, ttag, tsz, tlen, ttag2⟩ := tail_facts tag sz1 q tag2 sz2 rest ht hs1 hq ht2 hs2
  rw [headerOutcome_withPrefix x sz f e _ hx hsz hf he, if_neg t8, ttag, if_neg hne, tsz,
      if_neg tlen, ttag2, if_pos hne2]

theorem openSource_of_outcome_ok (src : List Byte) (c : Nat) (hdr : WAVEFORMAT)
    (h : headerOutcome src = .ok (c, hdr)) :
    openSource src = .ok { m_fs := strStream src c false 4, m_formatHeader := hdr } := by
  rw [openSource_eq, h]

/-- Two readers that have the same bytes ahead and the same state bits behave
alike under `Read`. -/
theorem Read_view (src src2 : List Byte) (pos pos2 : Nat) (e : Bool) (g g2 : Nat)
    (hdr hdr2 : WAVEFORMAT) (K : Nat) (hv : src.drop pos = src2.drop pos2) :
    ∃ data n e1 p1 p2 g1 g3,
      Read { m_fs := strStream src pos e g, m_formatHeader := hdr } K
        = .ok ({ m_fs := strStream src p1 e1 g1, m_formatHeader := hdr }, data, n)
      ∧ Read { m_fs := strStream src2 pos2 e g2, m_formatHeader := hdr2 } K
        = .ok ({ m_fs := strStream src2 p2 e1 g3, m_formatHeader := hdr2 }, data, n)
      ∧ src.drop p1 = src2.drop p2 := by
  have hs : slice src pos K = slice src2 pos2 K := by rw [slice, slice, hv]
  cases e with
  | true =>
    exact ⟨[], 0, true, pos, pos2, g, g2, by rw [Read_str]; rfl, by rw [Read_str]; rfl, hv⟩
  | false =>
    refine ⟨slice src pos K, toInt32 (slice src pos K).length,
      decide ((slice src pos K).length < K), pos + (slice src pos K).length,
      pos2 + (slice src pos K).length, (slice src pos K).length, (slice src pos K).length,
      ?_, ?_, ?_⟩
    · rw [Read_str]; rfl
    · rw [Read_str, ← hs]; rfl
    · rw [← List.drop_drop, ← List.drop_drop, hv]

theorem readOuts_view (ks : List Nat) (src src2 : List Byte) (hdr hdr2 : WAVEFORMAT) :
    ∀ (pos pos2 : Nat) (e : Bool) (g g2 : Nat), src.drop pos = src2.drop pos2 →
      readOuts { m_fs := strStream src pos e g, m_formatHeader := hdr } ks
        = readOuts { m_fs := strStream src2 pos2 e g2, m_formatHeader := hdr2 } ks := by
  induction ks with
  | nil => intro _ _ _ _ _ _; rfl
  | cons k ks ih =>
    intro pos pos2 e g g2 hv
    obtain ⟨data, n, e1, p1, p2, g1, g3, h1, h2, hv1⟩ :=
      Read_view src src2 pos pos2 e g g2 hdr hdr2 k hv
    have hi := ih p1 p2 e1 g1 g3 hv1
    simp only [readOuts, readSeq, h1, h2] at hi ⊢
    cases ha : readSeq { m_fs := strStream src p1 e1 g1, m_formatHeader := hdr } ks with
    | error err =>
      cases hb : readSeq { m_fs := strStream src2 p2 e1 g3, m_formatHeader := hdr2 } ks with
      | error err2 => rw [ha, hb] at hi; simpa using hi
      | ok v2 => rw [ha, hb] at hi; simp at hi
    | ok v =>
      cases hb : readSeq { m_fs := strStream src2 p2 e1 g3, m_formatHeader := hdr2 } ks with
      | error err2 => rw [ha, hb] at hi; simp at hi
      | ok v2 => rw [ha, hb] at hi; simpa using hi

theorem streamAll_view (K : Nat) (src src2 : List Byte) (hdr hdr2 : WAVEFORMAT) :
    ∀ (fuel pos pos2 : Nat) (e : Bool) (g g2 : Nat), src.drop pos = src2.drop pos2 →
      streamAll fuel { m_fs := strStream src pos e g, m_formatHeader := hdr } K
        = streamAll fuel { m_fs := strStream src2 pos2 e g2, m_formatHeader := hdr2 } K := by
  intro fuel
  induction fuel with
  | zero => intro _ _ _ _ _ _; rfl
  | succ fuel ih =>
    intro pos pos2 e g g2 hv
    obtain ⟨data, n, e1, p1, p2, g1, g3, h1, h2, hv1⟩ :=
      Read_view src src2 pos pos2 e g g2 hdr hdr2 K hv
    simp only [streamAll, h1, h2, ih p1 p2 e1 g1 g3 hv1]

theorem slice_take (src : List Byte) (p k n : Nat) (h : p + k ≤ n) :
    slice (src.take n) p k = slice src p k := by
  rw [slice, slice, List.drop_take, List.take_take, Nat.min_eq_left (by omega)]

theorem Read_first (src : List Byte) (c : Nat) (hdr : WAVEFORMAT) (p : List Byte) (K : Nat)
    (hdrop : src.drop c = p) (hp : p ≠ []) (hlen : p.length < 2 ^ 32) (hK : 1 ≤ K) :
    ∃ r1 n, Read { m_fs := strStream src c false 4, m_formatHeader := hdr } K
        = .ok (r1, p.take K, n) ∧ n ≠ 0 ∧ (p.take K).head? = p.head? := by
  have hs : slice src c K = p.take K := by rw [slice, hdrop]
  have hpl : 0 < p.length := List.length_pos.mpr hp
  have hl : (p.take K).length = min K p.length := List.length_take _ _
  refine ⟨WavFileReader.mk (strStream src (c + (p.take K).length)
      (decide ((p.take K).length < K)) (p.take K).length) hdr,
    toInt32 (p.take K).length, ?_, ?_, ?_⟩
  · rw [Read_str, hs]; rfl
  · rw [Ne, toInt32_eq_zero _ (by rw [hl]; omega), hl]; omega
  · cases p with
    | nil => exact absurd rfl hp
    | cons a t =>
      cases K with
      | zero => omega
      | succ k => rfl

theorem headerOutcome_ne_prematureEnd (src : List Byte) :
    headerOutcome src ≠ .error (.runtime_error .prematureEnd) := by
  unfold headerOutcome
  by_cases c1 : src.length < 4
  · rw [if_pos c1]; intro h; cases h
  rw [if_neg c1]
  by_cases c2 : slice src 0 4 ≠ tagRIFF
  · rw [if_pos c2]; intro h; cases h
  rw [if_neg c2]
  by_cases c3 : src.length < 12
  · rw [if_pos c3]; intro h; cases h
  rw [if_neg c3]
  by_cases c4 : slice src 8 4 ≠ tagWAVE
  · rw [if_pos c4]; intro h; cases h
  rw [if_neg c4]
  by_cases c5 : src.length < 20
  · rw [if_pos c5]; intro h; cases h
  rw [if_neg c5]
  by_cases c6 : slice src 12 4 ≠ tagFmt
  · rw [if_pos c6]; intro h; cases h
  rw [if_neg c6]
  by_cases c7 : src.length < 36
  · rw [if_pos c7]; intro h; cases h
  rw [if_neg c7]
  by_cases c8 : src.length < afterFmt src + 8
  · rw [if_pos c8]; intro h; cases h
  rw [if_neg c8]
  by_cases c9 : slice src (afterFmt src) 4 = tagData
  · rw [if_pos c9]; intro h; cases h
  rw [if_neg c9]
  by_cases c10 : src.length < afterSkip src + 8
  · rw [if_pos c10]; intro h; cases h
  rw [if_neg c10]
  by_cases c11 : slice src (afterSkip src) 4 ≠ tagData
  · rw [if_pos c11]; intro h; cases h
  rw [if_neg c11]; intro h; cases h

/-- What a successful run of the header checks says about the file. -/
theorem headerOutcome_ok_facts (src : List Byte) (c : Nat) (hdr : WAVEFORMAT)
    (h : headerOutcome src = .ok (c, hdr)) :
    slice src 0 4 = tagRIFF ∧ slice src 8 4 = tagWAVE ∧ slice src 12 4 = tagFmt
      ∧ afterFmt src + 8 ≤ src.length
      ∧ ((slice src (afterFmt src) 4 = tagData ∧ c = afterFmt src + 8)
        ∨ (slice src (afterFmt src) 4 ≠ tagData ∧ afterSkip src + 8 ≤ src.length
            ∧ slice src (afterSkip src) 4 = tagData ∧ c = afterSkip src + 8)) := by
  unfold headerOutcome at h
  by_cases c1 : src.length < 4
  · rw [if_pos c1] at h; cases h
  rw [if_neg c1] at h
  by_cases c2 : slice src 0 4 ≠ tagRIFF
  · rw [if_pos c2] at h; cases h
  rw [if_neg c2] at h
  by_cases c3 : src.length < 12
  · rw [if_pos c3] at h; cases h
  rw [if_neg c3] at h
  by_cases c4 : slice src 8 4 ≠ tagWAVE
  · rw [if_pos c4] at h; cases h
  rw [if_neg c4] at h
  by_cases c5 : src.length < 20
  · rw [if_pos c5] at h; cases h
  rw [if_neg c5] at h
  by_cases c6 : slice src 12 4 ≠ tagFmt
  · rw [if_pos c6] at h; cases h
  rw [if_neg c6] at h
  by_cases c7 : src.length < 36
  · rw [if_pos c7] at h; cases h
  rw [if_neg c7] at h
  by_cases c8 : src.length < afterFmt src + 8
  · rw [if_pos c8] at h; cases h
  rw [if_neg c8] at h
  refine ⟨not_not.mp c2, not_not.mp c4, not_not.mp c6, by omega, ?_⟩
  by_cases c9 : slice src (afterFmt src) 4 = tagData
  · rw [if_pos c9] at h
    simp only [Except.ok.injEq, Prod.mk.injEq] at h
    exact Or.inl ⟨c9, h.1.symm⟩
  rw [if_neg c9] at h
  by_cases c10 : src.length < afterSkip src + 8
  · rw [if_pos c10] at h; cases h
  rw [if_neg c10] at h
  by_cases c11 : slice src (afterSkip src) 4 ≠ tagData
  · rw [if_pos c11] at h; cases h
  rw [if_neg c11] at h
  simp only [Except.ok.injEq, Prod.mk.injEq] at h
  exact Or.inr ⟨c9, by omega, not_not.mp c11, h.1.symm⟩

/-- Cutting the file anywhere before the offset at which a successful run of the
header checks ends makes a read run past the end of the file. -/
theorem headerOutcome_take (src : List Byte) (c n : Nat) (hdr : WAVEFORMAT)
    (h : headerOutcome src = .ok (c, hdr)) (hn : n < c) :
    headerOutcome (src.take n) = .error .ios_failure := by
  obtain ⟨hR, hW, hF, hlen, hcase⟩ := headerOutcome_ok_facts src c hdr h
  have hc := (headerOutcome_ok src c hdr h).2
  have hl : (src.take n).length = n := by rw [List.length_take]; omega
  unfold headerOutcome
  rw [hl]
  by_cases c1 : n < 4
  · rw [if_pos c1]
  rw [if_neg c1, slice_take src 0 4 n (by omega), if_neg (not_not.mpr hR)]
  by_cases c3 : n < 12
  · rw [if_pos c3]
  rw [if_neg c3, slice_take src 8 4 n (by omega), if_neg (not_not.mpr hW)]
  by_cases c5 : n < 20
  · rw [if_pos c5]
  rw [if_neg c5, slice_take src 12 4 n (by omega), if_neg (not_not.mpr hF)]
  by_cases c7 : n < 36
  · rw [if_pos c7]
  rw [if_neg c7]
  have ha : afterFmt (src.take n) = afterFmt src := by
    rw [afterFmt, afterFmt, slice_take src 16 4 n (by omega)]
  rw [ha]
  by_cases c8 : n < afterFmt src + 8
  · rw [if_pos c8]
  rw [if_neg c8, slice_take src (afterFmt src) 4 n (by omega)]
  have hs : afterSkip (src.take n) = afterSkip src := by
    rw [afterSkip, afterSkip, ha, slice_take src (afterFmt src + 4) 4 n (by omega)]
  rcases hcase with ⟨_, hcd⟩ | ⟨hnd, _, _, hcs⟩
  · omega
  · rw [if_neg hnd, hs, if_pos (by omega)]

/-! ## Any stream with no state bit set -/

theorem byteAt_slice (src : List Byte) (p n i : Nat) (h : i < n) :
    byteAt (slice src p n) i = byteAt src (p + i) := by
  simp [byteAt, slice, List.getD_eq_getElem?_getD, List.getElem?_take, h]

theorem read_good (s : FStream) (n : Nat) (hg : s.good = true) (h : s.pos + n ≤ s.src.length) :
    s.read n = .ok ({ s with pos := s.pos + n, gcount := n }, slice s.src s.pos n) := by
  have hl : ((s.src.drop s.pos).take n).length = n := by
    rw [List.length_take, List.length_drop]; omega
  simp only [FStream.read, hg, if_true, hl, Nat.lt_irrefl, if_false, slice]

theorem ReadChunkTypeAndSize_good (s : FStream) (hg : s.good = true)
    (h : s.pos + 8 ≤ s.src.length) :
    ReadChunkTypeAndSize s
      = .ok ({ s with pos := s.pos + 8, gcount := 4 }, slice s.src s.pos 4,
          chunkSizeOf (slice s.src (s.pos + 4) 4)) := by
  have h1 := read_good s 4 hg (by omega)
  have h2 := read_good { s with pos := s.pos + 4, gcount := 4 } 4 hg (by simpa using by omega)
  simp only [ReadChunkTypeAndSize, chunkTypeBufferSize, chunkSizeBufferSize, h1, h2]

theorem headerOutcome_wave (src : List Byte) (hlen : 20 ≤ src.length)
    (hriff : slice src 0 4 = tagRIFF) (hw : slice src 8 4 ≠ tagWAVE) :
    headerOutcome src = .error (.runtime_error .waveExpected) := by
  rw [headerOutcome, if_neg (by omega), if_neg (not_not.mpr hriff), if_neg (by omega), if_pos hw]

theorem headerOutcome_fmt (src : List Byte) (hlen : 20 ≤ src.length)
    (hriff : slice src 0 4 = tagRIFF) (hw : slice src 8 4 = tagWAVE)
    (hf : slice src 12 4 ≠ tagFmt) :
    headerOutcome src = .error (.runtime_error .fmtExpected) := by
  rw [headerOutcome, if_neg (by omega), if_neg (not_not.mpr hriff), if_neg (by omega),
    if_neg (not_not.mpr hw), if_neg (by omega), if_pos hf]

/-! ## Files that agree where the header checks look -/

/-- The closed form of the header checks only depends on the length of the
file and on the bytes at the offsets it inspects. -/
theorem headerOutcome_congr (a b : List Byte) (hlen : a.length = b.length)
    (h0 : slice a 0 4 = slice b 0 4) (h8 : slice a 8 4 = slice b 8 4)
    (h12 : slice a 12 4 = slice b 12 4) (h20 : slice a 20 16 = slice b 20 16)
    (haf : afterFmt a = afterFmt b)
    (hA : slice a (afterFmt a) 4 = slice b (afterFmt a) 4)
    (hS : slice a (afterFmt a) 4 ≠ tagData →
      afterSkip a = afterSkip b ∧ slice a (afterSkip a) 4 = slice b (afterSkip a) 4) :
    headerOutcome a = headerOutcome b := by
  unfold headerOutcome
  rw [← hlen, ← h0, ← h8, ← h12, ← h20, ← haf, ← hA]
  by_cases hd : slice a (afterFmt a) 4 = tagData
  · simp only [hd, if_true]
  · obtain ⟨hs, hs4⟩ := hS hd
    rw [← hs, ← hs4]

theorem slice_of_drop_eq (a b : List Byte) (k p n : Nat) (h : a.drop k = b.drop k)
    (hp : k ≤ p) : slice a p n = slice b p n := by
  obtain ⟨d, rfl⟩ := Nat.exists_eq_add_of_le hp
  rw [slice, slice, ← List.drop_drop, ← List.drop_drop, h]

theorem slice_of_take_eq (a b : List Byte) (k p n : Nat) (h : a.take k = b.take k)
    (hp : p + n ≤ k) : slice a p n = slice b p n := by
  rw [← slice_take a p n k hp, ← slice_take b p n k hp, h]

theorem openOutcome_eq (src : List Byte) :
    openOutcome src =
      match headerOutcome src with
      | .error .ios_failure => .error (.runtime_error .unexpectedEnd)
      | .error e => .error e
      | .ok v => .ok v := by
  rw [openOutcome, openSource_eq]
  cases h : headerOutcome src with
  | error e => cases e <;> rfl
  | ok v => rfl

/-- Two files on which the header checks have the same closed form, and which
hold the same bytes from the offset where a successful run ends, give the same
outcome of the constructor and readers that behave alike. -/
theorem open_congr (a b : List Byte) (hout : headerOutcome a = headerOutcome b)
    (hrest : ∀ c hdr, headerOutcome a = .ok (c, hdr) → a.drop c = b.drop c) :
    openOutcome a = openOutcome b
      ∧ ∀ ra, openSource a = .ok ra →
          ∃ rb, openSource b = .ok rb ∧ rb.m_formatHeader = ra.m_formatHeader
            ∧ rb.m_fs.pos = ra.m_fs.pos
            ∧ (∀ ks, readOuts rb ks = readOuts ra ks)
            ∧ (∀ K fuel, streamAll fuel rb K = streamAll fuel ra K) := by
  refine ⟨by rw [openOutcome_eq, openOutcome_eq, hout], fun ra hra => ?_⟩
  obtain ⟨c, ha, hr, _, _⟩ := openSource_ok a ra hra
  obtain ⟨fs, hdr⟩ := ra
  simp only [WavFileReader.mk.injEq, and_true] at hr
  subst hr
  have hb : headerOutcome b = .ok (c, hdr) := by rw [← hout, ha]
  have hv := hrest c _ ha
  refine ⟨_, openSource_of_outcome_ok b c _ hb, rfl, rfl, ?_, ?_⟩
  · intro ks
    exact readOuts_view ks b a _ _ c c false 4 4 hv.symm
  · intro K fuel
    exact streamAll_view K b a _ _ fuel c c false 4 4 hv.symm

theorem fmtSizeWav_facts (x t : List Byte) (s : Nat) (hx : x.length = 4) :
    (fmtSizeWav x s t).length = 20 + t.length
      ∧ (fmtSizeWav x s t).take 16 = tagRIFF ++ (x ++ (tagWAVE ++ tagFmt))
      ∧ slice (fmtSizeWav x s t) 16 4 = le32 s
      ∧ (fmtSizeWav x s t).drop 20 = t := by
  have h0 : (fmtSizeWav x s t).drop 0
      = tagRIFF ++ (x ++ (tagWAVE ++ (tagFmt ++ (le32 s ++ t)))) := by
    simp [fmtSizeWav, List.append_assoc]
  have h4 := drop_step h0 (show tagRIFF.length = 4 from rfl)
  have h8 := drop_step h4 hx
  have h12 := drop_step h8 (show tagWAVE.length = 4 from rfl)
  have h16 := drop_step h12 (show tagFmt.length = 4 from rfl)
  have h20 := drop_step h16 (length_le32 s)
  refine ⟨?_, ?_, slice_of_drop h16 (length_le32 s), h20⟩
  · simp only [fmtSizeWav, List.length_append, hx, length_le32, tagRIFF, tagWAVE, tagFmt,
      List.length_cons, List.length_nil]
  · have e : fmtSizeWav x s t = (tagRIFF ++ (x ++ (tagWAVE ++ tagFmt))) ++ (le32 s ++ t) := by
      simp [fmtSizeWav, List.append_assoc]
    rw [e]
    exact List.take_left' (by simp [hx, tagRIFF, tagWAVE, tagFmt])

theorem headerOutcome_ok_hdr (src : List Byte) (c : Nat) (hdr : WAVEFORMAT)
    (h : headerOutcome src = .ok (c, hdr)) : hdr = WAVEFORMAT.ofBytes (slice src 20 16) := by
  unfold headerOutcome at h
  by_cases c1 : src.length < 4
  · rw [if_pos c1] at h; cases h
  rw [if_neg c1] at h
  by_cases c2 : slice src 0 4 ≠ tagRIFF
  · rw [if_pos c2] at h; cases h
  rw [if_neg c2] at h
  by_cases c3 : src.length < 12
  · rw [if_pos c3] at h; cases h
  rw [if_neg c3] at h
  by_cases c4 : slice src 8 4 ≠ tagWAVE
  · rw [if_pos c4] at h; cases h
  rw [if_neg c4] at h
  by_cases c5 : src.length < 20
  · rw [if_pos c5] at h; cases h
  rw [if_neg c5] at h
  by_cases c6 : slice src 12 4 ≠ tagFmt
  · rw [if_pos c6] at h; cases h
  rw [if_neg c6] at h
  by_cases c7 : src.length < 36
  · rw [if_pos c7] at h; cases h
  rw [if_neg c7] at h
  by_cases c8 : src.length < afterFmt src + 8
  · rw [if_pos c8] at h; cases h
  rw [if_neg c8] at h
  by_cases c9 : slice src (afterFmt src) 4 = tagData
  · rw [if_pos c9] at h
    simp only [Except.ok.injEq, Prod.mk.injEq] at h
    exact h.2.symm
  rw [if_neg c9] at h
  by_cases c10 : src.length < afterSkip src + 8
  · rw [if_pos c10] at h; cases h
  rw [if_neg c10] at h
  by_cases c11 : slice src (afterSkip src) 4 ≠ tagData
  · rw [if_pos c11] at h; cases h
  rw [if_neg c11] at h
  simp only [Except.ok.injEq, Prod.mk.injEq] at h
  exact h.2.symm

/-- A file that agrees with `a` up to the size field of the data chunk found by
a successful run of the header checks on `a` passes them in the same way. -/
theorem headerOutcome_size_field (a b : List Byte) (c : Nat) (hdr : WAVEFORMAT)
    (ha : headerOutcome a = .ok (c, hdr)) (hlen : b.length = a.length)
    (ht : b.take (c - 4) = a.take (c - 4)) : headerOutcome b = .ok (c, hdr) := by
  obtain ⟨_, _, _, _, hcase⟩ := headerOutcome_ok_facts a c hdr ha
  have hafge : 36 ≤ afterFmt a := by unfold afterFmt; omega
  have hskge : afterFmt a + 8 ≤ afterSkip a := by unfold afterSkip; omega
  have hc : afterFmt a + 8 ≤ c := by
    rcases hcase with ⟨_, h⟩ | ⟨_, _, _, h⟩ <;> omega
  have hs : ∀ p n, p + n ≤ c - 4 → slice a p n = slice b p n :=
    fun p n hp => slice_of_take_eq a b (c - 4) p n ht.symm hp
  have haf : afterFmt a = afterFmt b := by
    rw [afterFmt, afterFmt, hs 16 4 (by omega)]
  rw [← ha]
  refine (headerOutcome_congr a b hlen.symm (hs 0 4 (by omega)) (hs 8 4 (by omega))
    (hs 12 4 (by omega)) (hs 20 16 (by omega)) haf (hs _ 4 (by omega)) (fun hnd => ?_)).symm
  rcases hcase with ⟨hd, _⟩ | ⟨_, _, _, hcs⟩
  · exact absurd hd hnd
  · have hsk : afterSkip a = afterSkip b := by
      rw [afterSkip, afterSkip, ← haf, hs (afterFmt a + 4) 4 (by omega)]
    exact ⟨hsk, hs _ 4 (by omega)⟩

/-! ## Results of `Read` -/

theorem drop_eq_nil_of_le (src : List Byte) (pos : Nat) :
    src.drop pos = [] ↔ src.length ≤ pos := by
  rw [← List.length_eq_zero, List.length_drop]; omega

/-- In a state of a constructed reader, a `Read` of at least one byte returns 0
exactly when no byte is left, and from then on every `Read` returns 0. -/
theorem Read_zero_iff (src : List Byte) (r1 : WavFileReader) (K : Nat) (hs : Streaming src r1)
    (hK1 : 1 ≤ K) (hK2 : K < 2 ^ 32) :
    ∃ r2 data n, Read r1 K = .ok (r2, data, n)
      ∧ (n = 0 ↔ src.drop r1.m_fs.pos = [])
      ∧ (n = 0 → src.drop r2.m_fs.pos = [] ∧ ∀ m, Read r2 m = .ok (r2, [], 0)) := by
  obtain ⟨pos, e, g, hfs, hpos, he⟩ := hs
  obtain ⟨fs, hdr⟩ := r1
  simp only at hfs
  subst hfs
  have hl := length_slice src pos K
  cases e with
  | true =>
    have hp : pos = src.length := he rfl
    refine ⟨_, _, _, by rw [Read_str]; rfl, ?_, ?_⟩
    · constructor
      · intro _; exact (drop_eq_nil_of_le src pos).mpr (by omega)
      · intro _; rfl
    · intro _
      refine ⟨(drop_eq_nil_of_le src pos).mpr (by omega), fun m => ?_⟩
      rw [Read_str]; rfl
  | false =>
    have hz : toInt32 (slice src pos K).length = 0 ↔ src.length ≤ pos := by
      rw [toInt32_eq_zero _ (by rw [hl]; omega), hl]; omega
    refine ⟨WavFileReader.mk (strStream src (pos + (slice src pos K).length)
        (decide ((slice src pos K).length < K)) (slice src pos K).length) hdr,
      slice src pos K, toInt32 (slice src pos K).length, by rw [Read_str]; rfl, ?_, ?_⟩
    · rw [hz]; exact (drop_eq_nil_of_le src pos).symm
    · intro hn
      have hle := hz.mp hn
      have hz2 : (slice src pos K).length = 0 := by rw [hl]; omega
      have hd : decide ((slice src pos K).length < K) = true := by
        rw [hz2]; exact decide_eq_true (by omega)
      refine ⟨(drop_eq_nil_of_le src _).mpr (by show src.length ≤ pos + _; omega), fun m => ?_⟩
      rw [hd, Read_str]; rfl

/-- For sizes that fit a signed 32-bit `int`, the result of `Read` in a state of
a constructed reader lies between 0 and the size. -/
theorem Read_result_bounds (src : List Byte) (r1 : WavFileReader) (size : Nat)
    (hs : Streaming src r1) (hsize : size < 2 ^ 31) :
    ∃ r2 data n, Read r1 size = .ok (r2, data, n) ∧ 0 ≤ n ∧ n ≤ (size : Int) := by
  obtain ⟨pos, e, g, hfs, _, _⟩ := hs
  obtain ⟨fs, hdr⟩ := r1
  simp only at hfs
  subst hfs
  have hl := length_slice src pos size
  cases e with
  | true => exact ⟨_, _, _, by rw [Read_str]; rfl, le_refl _, by omega⟩
  | false =>
    refine ⟨WavFileReader.mk (strStream src (pos + (slice src pos size).length)
        (decide ((slice src pos size).length < size)) (slice src pos size).length) hdr,
      slice src pos size, toInt32 (slice src pos size).length, by rw [Read_str]; rfl, ?_, ?_⟩
    · rw [toInt32_of_lt _ (by rw [hl]; omega)]; omega
    · rw [toInt32_of_lt _ (by rw [hl]; omega), hl]; omega

theorem length_minimalWav (x f p : List Byte) (hx : x.length = 4) (hf : f.length = 16) :
    (minimalWav x f p).length = 44 + p.length := by
  have h := (withPrefix_facts x (le32 16) f [] (tagData ++ (le32 p.length ++ p)) hx rfl hf
    (by rw [chunkSizeOf_le32_16]; rfl)).1
  rw [← minimalWav_eq] at h
  have ht : (tagData ++ (le32 p.length ++ p)).length = 8 + p.length := by
    rw [List.length_append, List.length_append, length_le32]
    show 4 + (4 + p.length) = 8 + p.length
    omega
  rw [h, ht, List.length_nil]
  omega

theorem length_bigWav : bigWav.length = 44 + 2 ^ 31 := by
  have hp : bigPayload.length = 2 ^ 31 := List.length_replicate _ _
  have h := length_minimalWav [0, 0, 0, 0] pcm16k bigPayload rfl rfl
  rw [hp] at h
  exact h

/-! ## Readers under device errors -/

theorem StreamingOrFailed_of_Streaming (src : List Byte) (r : WavFileReader)
    (h : Streaming src r) : StreamingOrFailed src r := by
  obtain ⟨pos, e, g, hfs, hpos, he⟩ := h
  exact ⟨pos, e, e, false, g, hfs, hpos, he⟩

theorem StreamingOrFailed_ioError (src : List Byte) (r : WavFileReader)
    (h : StreamingOrFailed src r) :
    StreamingOrFailed src { r with m_fs := r.m_fs.ioError } := by
  obtain ⟨pos, e, f, b, g, hfs, hpos, he⟩ := h
  refine ⟨pos, e, f, true, g, ?_, hpos, he⟩
  simp only [hfs, FStream.ioError, anyStream]

/-- `Read` of at least one byte in a state of a constructed reader, device
errors allowed: it does not throw; a 0 result that is not a read error means
that no byte is left and sets `eofbit`; and with no byte left the result is 0. -/
theorem Read_sof (src : List Byte) (r1 : WavFileReader) (K : Nat)
    (hs : StreamingOrFailed src r1) (hK1 : 1 ≤ K) (hK2 : K < 2 ^ 32) :
    ∃ r2 data n, Read r1 K = .ok (r2, data, n) ∧ StreamingOrFailed src r2
      ∧ (n = 0 → readError r2 = false →
          src.drop r1.m_fs.pos = [] ∧ src.drop r2.m_fs.pos = [] ∧ r2.m_fs.eof = true)
      ∧ (src.drop r1.m_fs.pos = [] → n = 0) := by
  obtain ⟨pos, e, f, b, g, hfs, hpos, he⟩ := hs
  obtain ⟨fs, hdr⟩ := r1
  simp only at hfs
  subst hfs
  cases e with
  | true =>
    have hp : pos = src.length := he rfl
    refine ⟨WavFileReader.mk (anyStream src pos true f b g) hdr, [], 0,
      by simp [Read, FStream.eof, anyStream], ⟨pos, true, f, b, g, rfl, hpos, he⟩, ?_, ?_⟩
    · intro _ _
      exact ⟨(drop_eq_nil_of_le src pos).mpr (by omega),
        (drop_eq_nil_of_le src pos).mpr (by omega), rfl⟩
    · intro _; rfl
  | false =>
    by_cases hg : f = false ∧ b = false
    · obtain ⟨rfl, rfl⟩ := hg
      have hl := length_slice src pos K
      have hread := Read_str src pos false g hdr K
      simp only [Bool.false_eq_true, if_false] at hread
      have hz : toInt32 (slice src pos K).length = 0 ↔ src.length ≤ pos := by
        rw [toInt32_eq_zero _ (by rw [hl]; omega), hl]; omega
      refine ⟨_, _, _, hread, ⟨_, _, _, false, _, rfl, ?_, ?_⟩, ?_, ?_⟩
      · rw [hl]; omega
      · rw [hl]; simp only [decide_eq_true_eq]; omega
      · intro hn _
        have hle := hz.mp hn
        have hz2 : (slice src pos K).length = 0 := by rw [hl]; omega
        refine ⟨(drop_eq_nil_of_le src pos).mpr hle,
          (drop_eq_nil_of_le src _).mpr (by show src.length ≤ pos + _; omega), ?_⟩
        show decide ((slice src pos K).length < K) = true
        rw [hz2]; exact decide_eq_true (by omega)
      · intro hd
        exact hz.mpr ((drop_eq_nil_of_le src pos).mp hd)
    · refine ⟨WavFileReader.mk (anyStream src pos false true b 0) hdr, [], 0, ?_,
        ⟨pos, false, true, b, 0, rfl, hpos, he⟩, ?_, ?_⟩
      · simp [Read, FStream.eof, FStream.read, FStream.good, hg, FStream.setstate,
          FStream.clear, anyStream]
      · intro _ hre
        simp [readError, FStream.eof, FStream.good, anyStream] at hre
      · intro _; rfl

theorem StreamingOrFailed_Read (src : List Byte) (r : WavFileReader) (K : Nat)
    (hs : StreamingOrFailed src r) :
    ∃ r1 data n, Read r K = .ok (r1, data, n) ∧ StreamingOrFailed src r1
      ∧ (r.m_fs.eof = true → r1.m_fs.eof = true) := by
  obtain ⟨pos, e, f, b, g, hfs, hpos, he⟩ := hs
  obtain ⟨fs, hdr⟩ := r
  simp only at hfs
  subst hfs
  cases e with
  | true =>
    exact ⟨WavFileReader.mk (anyStream src pos true f b g) hdr, [], 0,
      by simp [Read, FStream.eof, anyStream], ⟨pos, true, f, b, g, rfl, hpos, he⟩, fun h => h⟩
  | false =>
    by_cases hg : f = false ∧ b = false
    · obtain ⟨rfl, rfl⟩ := hg
      have hl := length_slice src pos K
      have hread := Read_str src pos false g hdr K
      simp only [Bool.false_eq_true, if_false] at hread
      refine ⟨_, _, _, hread, ⟨_, _, _, false, _, rfl, ?_, ?_⟩, ?_⟩
      · rw [hl]; omega
      · rw [hl]; simp only [decide_eq_true_eq]; omega
      · intro h; exact absurd h (by simp [anyStream, FStream.eof])
    · refine ⟨WavFileReader.mk (anyStream src pos false true b 0) hdr, [], 0, ?_,
        ⟨pos, false, true, b, 0, rfl, hpos, he⟩, ?_⟩
      · simp [Read, FStream.eof, FStream.read, FStream.good, hg, FStream.setstate,
          FStream.clear, anyStream]
      · intro h; exact absurd h (by simp [anyStream, FStream.eof])

/-- Device errors and `Read` calls keep a constructed reader within
`StreamingOrFailed`, never throw, and never clear `eofbit`. -/
theorem StreamingOrFailed_runEvents (src : List Byte) (evs : List ReaderEvent) :
    ∀ r, StreamingOrFailed src r → ∃ r1, runEvents r evs = .ok r1 ∧ StreamingOrFailed src r1
      ∧ (r.m_fs.eof = true → r1.m_fs.eof = true) := by
  induction evs with
  | nil => intro r h; exact ⟨r, rfl, h, fun h => h⟩
  | cons ev evs ih =>
    intro r h
    cases ev with
    | read size =>
      obtain ⟨r1, data, n, hread, hs1, he1⟩ := StreamingOrFailed_Read src r size h
      obtain ⟨r2, hrun, hs2, he2⟩ := ih r1 hs1
      refine ⟨r2, ?_, hs2, fun h => he2 (he1 h)⟩
      simp only [runEvents, hread, hrun]
    | ioError =>
      obtain ⟨r2, hrun, hs2, he2⟩ := ih _ (StreamingOrFailed_ioError src r h)
      exact ⟨r2, by simp only [runEvents, hrun], hs2, fun h => he2 h⟩

theorem runEvents_ok_sof (src : List Byte) (evs : List ReaderEvent) (r r1 : WavFileReader)
    (h : StreamingOrFailed src r) (hrun : runEvents r evs = .ok r1) :
    StreamingOrFailed src r1 ∧ (r.m_fs.eof = true → r1.m_fs.eof = true) := by
  obtain ⟨r2, hrun2, hs2, he2⟩ := StreamingOrFailed_runEvents src evs r h
  rw [hrun] at hrun2
  simp only [Except.ok.injEq] at hrun2
  subst hrun2
  exact ⟨hs2, he2⟩

theorem Read_of_eof (r : WavFileReader) (m : Nat) (h : r.m_fs.eof = true) :
    Read r m = .ok (r, [], 0) := by
  simp only [Read, h, if_true]

/-- A device error makes `Read` return 0 through the read-error branch while
bytes are left: the case the "no read error" guard is about. -/
theorem Read_after_ioError_sample :
    runEvents sampleReader [.ioError] = .ok sampleReaderFailed
      ∧ ∃ r2, Read sampleReaderFailed 640 = .ok (r2, [], 0) ∧ readError r2 = true
          ∧ sampleWav.drop r2.m_fs.pos = [9, 8, 7] :=
  ⟨rfl, WavFileReader.mk (anyStream sampleWav 44 false true true 0) (WAVEFORMAT.ofBytes pcm16k),
    rfl, rfl, by decide⟩

/-! ## The recorded constructor agrees with the constructor -/

theorem ReadChunkTypeAndSizeT_fst (s : FStream) (log : List FsEvent) :
    (ReadChunkTypeAndSizeT s log).1 = ReadChunkTypeAndSize s := by
  simp only [ReadChunkTypeAndSizeT, ReadChunkTypeAndSize, FStream.readT]
  cases s.read chunkTypeBufferSize with
  | error e => rfl
  | ok v =>
    obtain ⟨fs1, ct⟩ := v
    simp only []
    cases fs1.read chunkSizeBufferSize with
    | error e => rfl
    | ok w => rfl

theorem ReadChunkTypeAndSizeT_eta (s : FStream) (log : List FsEvent) :
    ReadChunkTypeAndSizeT s log
      = (ReadChunkTypeAndSize s, (ReadChunkTypeAndSizeT s log).2) :=
  Prod.ext (ReadChunkTypeAndSizeT_fst s log) rfl

/-- Forgetting the record, the recorded header checks are the header checks. -/
theorem headerBodyT_fst (s : FStream) (log : List FsEvent) :
    (headerBodyT s log).1 = headerBody s := by
  simp only [headerBodyT, headerBody, FStream.readT, FStream.seekgT]
  generalize log ++ [FsEvent.readCall tagBufferSize] = l1
  rcases s.read tagBufferSize with e | ⟨fs1, tag⟩
  · rfl
  simp only []
  by_cases ht : (tag != tagRIFF) = true
  · rw [if_pos ht, if_pos ht]
  rw [if_neg ht, if_neg ht]
  generalize l1 ++ [FsEvent.readCall chunkSizeBufferSize] = l2
  rcases fs1.read chunkSizeBufferSize with e | ⟨fs2, buf⟩
  · rfl
  simp only []
  generalize l2 ++ [FsEvent.readCall chunkTypeBufferSize] = l3
  rcases fs2.read chunkTypeBufferSize with e | ⟨fs3, ct⟩
  · rfl
  simp only []
  by_cases hw : (ct != tagWAVE) = true
  · rw [if_pos hw, if_pos hw]
  rw [if_neg hw, if_neg hw, ReadChunkTypeAndSizeT_eta fs3 l3]
  generalize (ReadChunkTypeAndSizeT fs3 l3).2 = l4
  rcases ReadChunkTypeAndSize fs3 with e | ⟨fs4, ct4, size4⟩
  · rfl
  simp only []
  by_cases hf : (ct4 != tagFmt) = true
  · rw [if_pos hf, if_pos hf]
  rw [if_neg hf, if_neg hf]
  generalize l4 ++ [FsEvent.readCall sizeofFormatHeader] = l5
  rcases fs4.read sizeofFormatHeader with e | ⟨fs5, raw⟩
  · rfl
  simp only []
  have hpair : ∀ (c : Prop) [Decidable c] (a b : Except Exn FStream) (la lb : List FsEvent),
      (if c then (a, la) else (b, lb) : Traced FStream)
        = ((if c then a else b), (if c then la else lb)) := by
    intro c _ a b la lb
    by_cases hc : c
    · rw [if_pos hc, if_pos hc, if_pos hc]
    · rw [if_neg hc, if_neg hc, if_neg hc]
  rw [hpair]
  generalize (if size4 > sizeofFormatHeader
    then l5 ++ [FsEvent.seekCall (size4 - sizeofFormatHeader)] else l5) = l6
  rcases (if size4 > sizeofFormatHeader then fs5.seekg (size4 - sizeofFormatHeader)
    else Except.ok fs5 : Except Exn FStream) with e | fs6
  · rfl
  simp only []
  rw [ReadChunkTypeAndSizeT_eta fs6 l6]
  generalize (ReadChunkTypeAndSizeT fs6 l6).2 = l7
  rcases ReadChunkTypeAndSize fs6 with e | ⟨fs7, ct7, size7⟩
  · rfl
  simp only []
  by_cases hd : (ct7 != tagData) = true
  · rw [if_pos hd, if_pos hd]
    generalize l7 ++ [FsEvent.seekCall size7] = l8
    rcases fs7.seekg size7 with e | fs8
    · rfl
    simp only []
    rw [ReadChunkTypeAndSizeT_eta fs8 l8]
    generalize (ReadChunkTypeAndSizeT fs8 l8).2 = l9
    rcases ReadChunkTypeAndSize fs8 with e | ⟨fs9, ct9, size9⟩
    · rfl
    simp only []
    by_cases hd2 : (ct9 != tagData) = true
    · rw [if_pos hd2, if_pos hd2]
    rw [if_neg hd2, if_neg hd2]
    simp only []
    by_cases hp : (fs9.eof && decide (size9 > 0)) = true
    · rw [if_pos hp, if_pos hp]
    · rw [if_neg hp, if_neg hp]
  · rw [if_neg hd, if_neg hd]
    simp only []
    by_cases hp : (fs7.eof && decide (size7 > 0)) = true
    · rw [if_pos hp, if_pos hp]
    · rw [if_neg hp, if_neg hp]

theorem GetFormatFromWavFileT_fst (s : FStream) (log : List FsEvent) :
    (GetFormatFromWavFileT s log).1 = GetFormatFromWavFile s := by
  simp only [GetFormatFromWavFileT, GetFormatFromWavFile]
  rcases s.exceptions false true true with e | fs0
  · rfl
  simp only []
  have h := headerBodyT_fst fs0 log
  rcases hT : headerBodyT fs0 log with ⟨res, l1⟩
  rw [hT] at h
  simp only at h
  subst h
  rcases headerBody fs0 with e | ⟨fs1, hdr⟩
  · cases e <;> rfl
  simp only []
  rcases fs1.exceptions false false false with e | fs2
  · rfl
  · rfl

/-- Forgetting the record, the recorded constructor is the constructor. -/
theorem newTraced_fst (files : String → Option (List Byte)) (audioFileName : String) :
    (WavFileReader.newTraced files audioFileName).1 = WavFileReader.new files audioFileName := by
  simp only [WavFileReader.newTraced, WavFileReader.new, FStream.openFileT]
  by_cases hn : audioFileName.isEmpty = true
  · rw [if_pos hn, if_pos hn]
  rw [if_neg hn, if_neg hn]
  by_cases hg : (!(FStream.openFile (files audioFileName)).good) = true
  · rw [if_pos hg, if_pos hg]
  rw [if_neg hg, if_neg hg]
  exact GetFormatFromWavFileT_fst _ _

/-- The record of the constructor on a file that parses: the call of `open`,
then the eight reads of the header checks. -/
theorem newTraced_sample :
    WavFileReader.newTraced sampleFiles "a.wav"
      = (.ok sampleReader,
          [.openCall "a.wav", .readCall 4, .readCall 4, .readCall 4, .readCall 4, .readCall 4,
            .readCall 16, .readCall 4, .readCall 4]) :=
  rfl

/-! ## Claims -/

/-- C1: for a minimal WAV file "RIFF", any 4 bytes, "WAVE", "fmt ", LE32(16),
16 format bytes `f`, "data", LE32(|p|), payload `p`, the constructor succeeds,
the six header fields are the little-endian values of the bytes of `f` at
offsets 0, 2, 4, 8, 12, 14, and the get position is left at offset 44, where
`p` starts. -/
theorem C1_open_minimal (x f p : List Byte) (hx : x.length = 4) (hf : f.length = 16)
    (hp : p.length < 2 ^ 32) :
    ∃ r, openSource (minimalWav x f p) = .ok r
      ∧ r.m_formatHeader.FormatTag = byteAt f 0 + 256 * byteAt f 1
      ∧ r.m_formatHeader.Channels = byteAt f 2 + 256 * byteAt f 3
      ∧ r.m_formatHeader.SamplesPerSec
          = byteAt f 4 + 256 * byteAt f 5 + 65536 * byteAt f 6 + 16777216 * byteAt f 7
      ∧ r.m_formatHeader.AvgBytesPerSec
          = byteAt f 8 + 256 * byteAt f 9 + 65536 * byteAt f 10 + 16777216 * byteAt f 11
      ∧ r.m_formatHeader.BlockAlign = byteAt f 12 + 256 * byteAt f 13
      ∧ r.m_formatHeader.BitsPerSample = byteAt f 14 + 256 * byteAt f 15
      ∧ r.m_fs.pos = 44
      ∧ r.m_fs.good = true
      ∧ r.m_fs.src.drop r.m_fs.pos = p
      ∧ declaredSize r.m_fs.src r.m_fs.pos = p.length := by
  obtain ⟨hopen, hdrop⟩ := openSource_minimalWav x f p hx hf
  refine ⟨_, hopen, rfl, rfl, rfl, rfl, rfl, rfl, rfl, rfl, hdrop, ?_⟩
  have hfacts := withPrefix_facts x (le32 16) f [] (tagData ++ (le32 p.length ++ p)) hx rfl hf
    (by rw [chunkSizeOf_le32_16]; rfl)
  have h40 := drop_step hfacts.2.2.2.2.2.2 (show tagData.length = 4 from rfl)
  have hs := slice_of_drop h40 (length_le32 p.length)
  rw [← minimalWav_eq] at hs
  show chunkSizeOf (slice (minimalWav x f p) (44 - 4) 4) = p.length
  rw [show 44 - 4 = 36 + ([] : List Byte).length + 4 from rfl, hs, chunkSizeOf_le32 _ hp]

/-- C1 at a sample file: 16 kHz mono 16-bit PCM with three payload bytes. -/
theorem C1_open_minimal_witness :
    ∃ r, openSource (minimalWav [0, 0, 0, 0] pcm16k [9, 8, 7]) = .ok r
      ∧ r.m_formatHeader.FormatTag = byteAt pcm16k 0 + 256 * byteAt pcm16k 1
      ∧ r.m_formatHeader.Channels = byteAt pcm16k 2 + 256 * byteAt pcm16k 3
      ∧ r.m_formatHeader.SamplesPerSec
          = byteAt pcm16k 4 + 256 * byteAt pcm16k 5 + 65536 * byteAt pcm16k 6
            + 16777216 * byteAt pcm16k 7
      ∧ r.m_formatHeader.AvgBytesPerSec
          = byteAt pcm16k 8 + 256 * byteAt pcm16k 9 + 65536 * byteAt pcm16k 10
            + 16777216 * byteAt pcm16k 11
      ∧ r.m_formatHeader.BlockAlign = byteAt pcm16k 12 + 256 * byteAt pcm16k 13
      ∧ r.m_formatHeader.BitsPerSample = byteAt pcm16k 14 + 256 * byteAt pcm16k 15
      ∧ r.m_fs.pos = 44
      ∧ r.m_fs.good = true
      ∧ r.m_fs.src.drop r.m_fs.pos = [9, 8, 7]
      ∧ declaredSize r.m_fs.src r.m_fs.pos = ([9, 8, 7] : List Byte).length :=
  C1_open_minimal [0, 0, 0, 0] pcm16k [9, 8, 7] (by decide) (by decide) (by decide)

/-- C2 fails as stated: on `c2Input`, whose data chunk declares 1 byte and is
followed by 2 bytes, the constructor succeeds, and the loop of `Read(buf, 1)`
calls ends at its third call having delivered both bytes `[9, 8]`, while the
data chunk, as many bytes as declared, is `[9]`. -/
theorem C2_counterexample :
    openSource c2Input = .ok c2Reader
      ∧ streamAll 3 c2Reader 1 = some [9, 8]
      ∧ dataChunkBytes c2Input c2Reader.m_fs.pos = [9]
      ∧ streamAll 3 c2Reader 1 ≠ some (dataChunkBytes c2Input c2Reader.m_fs.pos) := by
  refine ⟨?_, ?_, ?_, ?_⟩
  · rfl
  · decide
  · decide
  · decide

/-- C2, amended: when the constructor succeeds, then for every buffer size `K`
with `1 ≤ K < 2^32` the loop of `Read(buf, K)` calls ends within
`remaining + 1` calls, and the concatenation of the bytes obtained is exactly
the bytes of the file from the get position left by the constructor to the end
of the file, whatever `K`; these are the data chunk bytes whenever the file
does not extend beyond the declared data size. -/
theorem C2_stream_reproduces_rest (src : List Byte) (r : WavFileReader) (K fuel : Nat)
    (hopen : openSource src = .ok r) (hK1 : 1 ≤ K) (hK2 : K < 2 ^ 32)
    (hfuel : src.length - r.m_fs.pos + 1 ≤ fuel) :
    streamAll fuel r K = some (src.drop r.m_fs.pos)
      ∧ (src.length ≤ r.m_fs.pos + declaredSize src r.m_fs.pos →
          streamAll fuel r K = some (dataChunkBytes src r.m_fs.pos)) := by
  obtain ⟨c, _, hr, _, hc⟩ := openSource_ok src r hopen
  have hpos : r.m_fs.pos = c := by rw [hr]; rfl
  have h1 : streamAll fuel r K = some (src.drop r.m_fs.pos) := by
    rw [hpos] at hfuel ⊢
    rw [hr]
    exact streamAll_str src _ K hK1 hK2 fuel c false 4 hc (by simp) hfuel
  refine ⟨h1, fun hd => ?_⟩
  rw [h1, dataChunkBytes, slice, List.take_of_length_le]
  rw [List.length_drop]; omega

/-- C2 (amended) at `sampleWav` with the buffer size 640 of `main`. -/
theorem C2_stream_reproduces_rest_witness :
    openSource sampleWav = .ok sampleReader ∧ 1 ≤ 640 ∧ 640 < 2 ^ 32
      ∧ sampleWav.length - sampleReader.m_fs.pos + 1 ≤ 4
      ∧ streamAll 4 sampleReader 640 = some (sampleWav.drop sampleReader.m_fs.pos)
      ∧ sampleWav.length ≤ sampleReader.m_fs.pos + declaredSize sampleWav sampleReader.m_fs.pos
      ∧ streamAll 4 sampleReader 640 = some (dataChunkBytes sampleWav sampleReader.m_fs.pos) :=
  have h := C2_stream_reproduces_rest sampleWav sampleReader 640 4 rfl (by decide) (by decide)
    (by decide)
  ⟨rfl, by decide, by decide, by decide, h.1, by decide, h.2 (by decide)⟩

/-- C3: in a reader state reached from a successful construction by any
sequence of `Read` calls and with `eofbit` not set, `Read(buf, K)` with
`K ≤ 2^31 - 1` returns `n = min K remaining`, stores the `n` file bytes that
start at the get position, and advances the position by `n`; if `n < K` the
position is then at the end of the file. -/
theorem C3_read_fills (src : List Byte) (r r1 : WavFileReader) (ks : List Nat)
    (outs : List (List Byte × Int)) (K : Nat)
    (hopen : openSource src = .ok r) (hseq : readSeq r ks = .ok (r1, outs))
    (heof : r1.m_fs.eof = false) (hK : K ≤ 2 ^ 31 - 1) :
    r1.m_fs.src = src ∧
    ∃ r2 data, Read r1 K = .ok (r2, data, ((min K (src.length - r1.m_fs.pos) : Nat) : Int))
      ∧ data = (src.drop r1.m_fs.pos).take (min K (src.length - r1.m_fs.pos))
      ∧ data.length = min K (src.length - r1.m_fs.pos)
      ∧ r2.m_fs.src = src
      ∧ r2.m_fs.pos = r1.m_fs.pos + min K (src.length - r1.m_fs.pos)
      ∧ (min K (src.length - r1.m_fs.pos) < K → r2.m_fs.pos = src.length) := by
  have hs := readSeq_ok_Streaming src ks r r1 outs (Streaming_open src r hopen) hseq
  obtain ⟨pos, e, g, hfs, hpos, he⟩ := hs
  obtain ⟨fs, hdr⟩ := r1
  simp only at hfs
  subst hfs
  have he2 : e = false := heof
  subst he2
  have hl := length_slice src pos K
  refine ⟨rfl, WavFileReader.mk (strStream src (pos + (slice src pos K).length)
      (decide ((slice src pos K).length < K)) (slice src pos K).length) hdr,
    slice src pos K, ?_, ?_, hl, rfl, ?_, ?_⟩
  · rw [Read_str]
    simp only [Bool.false_eq_true, if_false]
    rw [toInt32_of_lt _ (by rw [hl]; omega), hl]
    rfl
  · show slice src pos K = _
    rw [slice, ← List.length_drop, take_min_length]
    rfl
  · show pos + (slice src pos K).length = _
    rw [hl]; rfl
  · intro hlt
    show pos + (slice src pos K).length = _
    rw [hl]
    simp only [strStream] at hlt ⊢
    omega

/-- C3 at `c2Input`, after one `Read` of 1 byte, asking for 5 bytes. -/
theorem C3_read_fills_witness :
    openSource c2Input = .ok c2Reader
      ∧ readSeq c2Reader [1] = .ok (c2ReaderNext, [([9], 1)])
      ∧ c2ReaderNext.m_fs.eof = false
      ∧ ∃ r2 data,
          Read c2ReaderNext 5 = .ok (r2, data, ((min 5 (c2Input.length - 45) : Nat) : Int))
          ∧ data = (c2Input.drop 45).take (min 5 (c2Input.length - 45))
          ∧ r2.m_fs.pos = 45 + min 5 (c2Input.length - 45) :=
  ⟨rfl, rfl, rfl,
    (C3_read_fills c2Input c2Reader c2ReaderNext [1] [([9], 1)] 5 rfl rfl rfl
      (by decide)).2.elim
      fun r2 h2 => h2.elim fun data h3 => ⟨r2, data, h3.1, h3.2.1, h3.2.2.2.2.1⟩⟩

/-- C4: for a minimal WAV file with one chunk inserted between the fmt chunk
and the data chunk (a 4-byte tag other than "data", a declared size `S` and
exactly `S` payload bytes), the constructor succeeds, the format header is the
one parsed from the file without that chunk, the get position is left at the
first byte of the data payload `p`, and when `p` is not empty the first
`Read(buf, K)` with `K ≥ 1` obtains the first `K` bytes of `p`, so its first
byte is the first data byte, and returns a nonzero count. -/
theorem C4_one_extra_chunk (x f tag q p : List Byte) (S : Nat) (hx : x.length = 4)
    (hf : f.length = 16) (htag : tag.length = 4) (hne : tag ≠ tagData) (hS : S < 2 ^ 32)
    (hq : q.length = S) (hp : p.length < 2 ^ 32) :
    ∃ r r0, openSource (oneExtraWav x f tag S q p) = .ok r
      ∧ openSource (minimalWav x f p) = .ok r0
      ∧ r.m_formatHeader = r0.m_formatHeader
      ∧ r.m_fs.pos = 52 + S
      ∧ (oneExtraWav x f tag S q p).drop (52 + S) = p
      ∧ ∀ K, 1 ≤ K → p ≠ [] →
          ∃ r1 n, Read r K = .ok (r1, p.take K, n) ∧ n ≠ 0 ∧ (p.take K).head? = p.head? := by
  have heq : oneExtraWav x f tag S q p = withPrefix x (le32 16) f []
      (tag ++ (le32 S ++ (q ++ (tagData ++ (le32 p.length ++ p))))) := by
    simp [oneExtraWav, wavPrefix, chunk, withPrefix, List.append_assoc]
  obtain ⟨hout, hdrop⟩ := headerOutcome_skip x (le32 16) f [] tag (le32 S) q (le32 p.length) p
    hx rfl hf (by rw [chunkSizeOf_le32_16]; rfl) htag hne rfl
    (by rw [chunkSizeOf_le32 S hS, hq]) rfl
  rw [← heq] at hout hdrop
  have hpos : 52 + ([] : List Byte).length + q.length = 52 + S := by
    rw [hq]; rfl
  rw [hpos] at hout hdrop
  refine ⟨_, _, openSource_of_outcome_ok _ _ _ hout, (openSource_minimalWav x f p hx hf).1,
    rfl, rfl, hdrop, ?_⟩
  intro K hK hp0
  exact Read_first _ _ _ p K hdrop hp0 hp hK

/-- C4 at `sampleWav` with a 2-byte "LIST" chunk inserted, read with the buffer
size 640 of `main`. -/
theorem C4_one_extra_chunk_witness :
    tagLIST ≠ tagData ∧
    ∃ r r0, openSource (oneExtraWav [0, 0, 0, 0] pcm16k tagLIST 2 [1, 2] [9, 8, 7]) = .ok r
      ∧ openSource (minimalWav [0, 0, 0, 0] pcm16k [9, 8, 7]) = .ok r0
      ∧ r.m_formatHeader = r0.m_formatHeader
      ∧ r.m_fs.pos = 52 + 2
      ∧ ∃ r1 n, Read r 640 = .ok (r1, ([9, 8, 7] : List Byte).take 640, n) ∧ n ≠ 0
          ∧ (([9, 8, 7] : List Byte).take 640).head? = some 9 := by
  obtain ⟨r, r0, h1, h2, h3, h4, _, h6⟩ :=
    C4_one_extra_chunk [0, 0, 0, 0] pcm16k tagLIST [1, 2] [9, 8, 7] 2 (by decide) (by decide)
      (by decide) (by decide) (by decide) (by decide) (by decide)
  exact ⟨by decide, r, r0, h1, h2, h3, h4, h6 640 (by decide) (by decide)⟩

/-- C5: declaring `16 + N` as the fmt size of a minimal WAV file and inserting
`N` arbitrary bytes after the 16 format bytes (with `16 + N < 2^32`) changes
nothing: the constructor still succeeds, the format header is the same, the
get position is at the first data byte, and every sequence of `Read` calls, as
well as the streaming loop for every buffer size, yields the same results as
on the original file. -/
theorem C5_fmt_padding (x f e p : List Byte) (hx : x.length = 4) (hf : f.length = 16)
    (he : 16 + e.length < 2 ^ 32) :
    ∃ r r0, openSource (paddedWav x f e p) = .ok r
      ∧ openSource (minimalWav x f p) = .ok r0
      ∧ r.m_formatHeader = r0.m_formatHeader
      ∧ r.m_fs.pos = 44 + e.length
      ∧ (paddedWav x f e p).drop (44 + e.length) = p
      ∧ (∀ ks, readOuts r ks = readOuts r0 ks)
      ∧ (∀ K fuel, streamAll fuel r K = streamAll fuel r0 K) := by
  have heq : paddedWav x f e p = withPrefix x (le32 (16 + e.length)) f e
      (tagData ++ (le32 p.length ++ p)) := by
    simp [paddedWav, wavPrefix, chunk, withPrefix, List.append_assoc]
  obtain ⟨hout, hdrop, _⟩ := headerOutcome_direct x (le32 (16 + e.length)) f e (le32 p.length) p
    hx rfl hf (by rw [chunkSizeOf_le32 _ he]; omega) rfl
  rw [← heq] at hout hdrop
  obtain ⟨hmin, hdrop0⟩ := openSource_minimalWav x f p hx hf
  have hv : (paddedWav x f e p).drop (44 + e.length) = (minimalWav x f p).drop 44 := by
    rw [hdrop, hdrop0]
  refine ⟨_, _, openSource_of_outcome_ok _ _ _ hout, hmin, rfl, rfl, hdrop, ?_, ?_⟩
  · intro ks
    exact readOuts_view ks _ _ _ _ _ _ false 4 4 hv
  · intro K fuel
    exact streamAll_view K _ _ _ _ fuel _ _ false 4 4 hv

/-- C5 at `sampleWav` with two bytes of fmt extension. -/
theorem C5_fmt_padding_witness :
    ∃ r r0, openSource (paddedWav [0, 0, 0, 0] pcm16k [0xAA, 0xBB] [9, 8, 7]) = .ok r
      ∧ openSource (minimalWav [0, 0, 0, 0] pcm16k [9, 8, 7]) = .ok r0
      ∧ r.m_formatHeader = r0.m_formatHeader
      ∧ r.m_fs.pos = 44 + ([0xAA, 0xBB] : List Byte).length
      ∧ (paddedWav [0, 0, 0, 0] pcm16k [0xAA, 0xBB] [9, 8, 7]).drop
          (44 + ([0xAA, 0xBB] : List Byte).length) = [9, 8, 7]
      ∧ (∀ ks, readOuts r ks = readOuts r0 ks)
      ∧ (∀ K fuel, streamAll fuel r K = streamAll fuel r0 K) :=
  C5_fmt_padding [0, 0, 0, 0] pcm16k [0xAA, 0xBB] [9, 8, 7] (by decide) (by decide) (by decide)

/-- C6: when a RIFF/WAVE/fmt prefix is followed by a complete chunk whose tag
is not "data" and then by a chunk header whose tag is not "data" either, the
constructor throws the "data chunk must directly follow the fmt chunk" error
(`UnsupportedLayout`), whatever follows that second header. -/
theorem C6_two_extra_chunks (x f e tag1 q tag2 sz2 rest : List Byte) (S1 : Nat)
    (hx : x.length = 4) (hf : f.length = 16) (he : 16 + e.length < 2 ^ 32)
    (ht1 : tag1.length = 4) (hne1 : tag1 ≠ tagData) (hS1 : S1 < 2 ^ 32) (hq : q.length = S1)
    (ht2 : tag2.length = 4) (hne2 : tag2 ≠ tagData) (hs2 : sz2.length = 4) :
    openSource (twoExtraWav x f e tag1 S1 q tag2 sz2 rest)
        = .error (.runtime_error .dataMustFollow)
      ∧ Exn.kind (.runtime_error .dataMustFollow) = some .UnsupportedLayout := by
  have heq : twoExtraWav x f e tag1 S1 q tag2 sz2 rest = withPrefix x (le32 (16 + e.length)) f e
      (tag1 ++ (le32 S1 ++ (q ++ (tag2 ++ (sz2 ++ rest))))) := by
    simp [twoExtraWav, wavPrefix, chunk, withPrefix, List.append_assoc]
  have hout := headerOutcome_two x (le32 (16 + e.length)) f e tag1 (le32 S1) q tag2 sz2 rest
    hx rfl hf (by rw [chunkSizeOf_le32 _ he]; omega) ht1 hne1 rfl
    (by rw [chunkSizeOf_le32 S1 hS1, hq]) ht2 hne2 hs2
  rw [← heq] at hout
  refine ⟨?_, rfl⟩
  rw [openSource_eq, hout]

/-- C6 at a file with two "LIST" chunks before a data chunk. -/
theorem C6_two_extra_chunks_witness :
    openSource (twoExtraWav [0, 0, 0, 0] pcm16k [] tagLIST 2 [1, 2] tagLIST (le32 0)
        (chunk tagData 3 [9, 8, 7]))
        = .error (.runtime_error .dataMustFollow)
      ∧ Exn.kind (.runtime_error .dataMustFollow) = some .UnsupportedLayout :=
  C6_two_extra_chunks [0, 0, 0, 0] pcm16k [] tagLIST [1, 2] tagLIST (le32 0)
    (chunk tagData 3 [9, 8, 7]) 2 (by decide) (by decide) (by decide) (by decide) (by decide)
    (by decide) (by decide) (by decide) (by decide) (by decide)

/-- C7: on a file of at least 4 bytes whose first 4 bytes are not "RIFF", the
constructor throws the "tag RIFF is expected" error (`MalformedHeader`),
whatever the later bytes are. -/
theorem C7_riff_tag_expected (src : List Byte) (hlen : 4 ≤ src.length)
    (hne : src.take 4 ≠ tagRIFF) :
    openSource src = .error (.runtime_error .riffExpected)
      ∧ Exn.kind (.runtime_error .riffExpected) = some .MalformedHeader := by
  refine ⟨?_, rfl⟩
  have h1 : ¬ src.length < 4 := by omega
  have h2 : slice src 0 4 ≠ tagRIFF := hne
  rw [openSource_eq, headerOutcome, if_neg h1, if_pos h2]

/-- C7 at `rifxInput`, an otherwise valid file that starts with "RIFX". -/
theorem C7_riff_tag_expected_witness :
    4 ≤ rifxInput.length ∧ rifxInput.take 4 ≠ tagRIFF
      ∧ openSource rifxInput = .error (.runtime_error .riffExpected)
      ∧ Exn.kind (.runtime_error .riffExpected) = some .MalformedHeader :=
  ⟨by decide, by decide, C7_riff_tag_expected rifxInput (by decide) (by decide)⟩

/-- C8, evaluated on the code: on `c8Input` (44 bytes, a well-formed header
whose data chunk declares 2 bytes, end of file right after the data chunk
header) the constructor succeeds with the get position at 44, and on no file at
all does it throw the "Unexpected end of file, before any audio data can be
read" error: `eof()` is never set where line 115 tests it. -/
theorem C8_no_premature_end :
    c8Input.length = 44 ∧ declaredSize c8Input 44 = 2
      ∧ openSource c8Input
          = .ok { m_fs := strStream c8Input 44 false 4,
                  m_formatHeader := WAVEFORMAT.ofBytes pcm16k }
      ∧ ∀ src, openSource src ≠ .error (.runtime_error .prematureEnd) := by
  refine ⟨by decide, by decide, by rfl, ?_⟩
  intro src
  rw [openSource_eq]
  have h := headerOutcome_ne_prematureEnd src
  cases ho : headerOutcome src with
  | ok v => simp
  | error err =>
    rw [ho] at h
    cases err with
    | ios_failure => simp
    | invalid_argument w => simp
    | runtime_error w => simpa using h

/-- C9: when the constructor succeeds on `src` and leaves the get position at
`c`, then on the first `n < c` bytes of `src` it throws the "Unexpected end
of file or error when reading audio file" error (`MalformedHeader`); the header
region `[0, c)` lies within `src`, the constructed stream has neither `failbit`
nor `badbit` set, and whenever the header checks end in a stream failure the
constructor throws that same error instead of returning a reader. -/
theorem C9_truncated_header (src : List Byte) (r : WavFileReader) (n : Nat)
    (hopen : openSource src = .ok r) (hn : n < r.m_fs.pos) :
    openSource (src.take n) = .error (.runtime_error .unexpectedEnd)
      ∧ Exn.kind (.runtime_error .unexpectedEnd) = some .MalformedHeader
      ∧ r.m_fs.pos ≤ src.length
      ∧ r.m_fs.fail = false
      ∧ ∀ m_fs fs0, m_fs.exceptions false true true = .ok fs0 →
          headerBody fs0 = .error .ios_failure →
          GetFormatFromWavFile m_fs = .error (.runtime_error .unexpectedEnd) := by
  obtain ⟨c, hout, hr, _, hc⟩ := openSource_ok src r hopen
  have hpos : r.m_fs.pos = c := by rw [hr]; rfl
  rw [hpos] at hn ⊢
  refine ⟨?_, rfl, hc, by rw [hr]; rfl, ?_⟩
  · rw [openSource_eq, headerOutcome_take src c n _ hout hn]
  · intro m_fs fs0 h0 hb
    simp only [GetFormatFromWavFile, h0, hb]

/-- C9 at `sampleWav` cut after 43 bytes, one byte short of its header. -/
theorem C9_truncated_header_witness :
    openSource sampleWav = .ok sampleReader ∧ 43 < sampleReader.m_fs.pos
      ∧ openSource (sampleWav.take 43) = .error (.runtime_error .unexpectedEnd)
      ∧ sampleReader.m_fs.pos ≤ sampleWav.length :=
  have h := C9_truncated_header sampleWav sampleReader 43 rfl (by decide)
  ⟨rfl, by decide, h.1, h.2.2.1⟩

/-- C10: once a `Read` has obtained fewer bytes than it asked for, every later
`Read`, whatever its size, returns 0, does not throw, stores nothing, and leaves
the reader (get position, state bits, `gcount`) as it was. -/
theorem C10_read_idempotent (r r1 : WavFileReader) (K : Nat) (data : List Byte) (n : Int)
    (hread : Read r K = .ok (r1, data, n)) (hshort : data.length < K) (maxBytes : Nat) :
    Read r1 maxBytes = .ok (r1, [], 0) := by
  obtain ⟨⟨src, pos, e, f, b, g, xe, xf, xb⟩, hdr⟩ := r
  cases e with
  | true =>
    simp only [Read, FStream.eof, if_true, Except.ok.injEq, Prod.mk.injEq] at hread
    obtain ⟨rfl, _, _⟩ := hread
    simp [Read, FStream.eof]
  | false =>
    by_cases hg : f = false ∧ b = false
    · obtain ⟨rfl, rfl⟩ := hg
      simp only [Read, FStream.eof, FStream.read, FStream.good, Bool.not_false, Bool.and_self,
        if_true, Bool.false_eq_true, if_false] at hread
      by_cases hlt : ((src.drop pos).take K).length < K
      · simp only [hlt, if_true, FStream.setstate, FStream.clear] at hread
        cases xe <;> cases xf <;> simp at hread
        obtain ⟨rfl, _, _⟩ := hread
        simp [Read, FStream.eof]
      · simp only [hlt, if_false, Bool.not_false, Bool.not_true, Bool.and_false,
          Bool.false_eq_true, Except.ok.injEq, Prod.mk.injEq] at hread
        obtain ⟨_, rfl, _⟩ := hread
        exact absurd hshort hlt
    · have hng : (!false && !f && !b) = false := by
        cases f <;> cases b <;> simp at hg ⊢
      simp only [Read, FStream.eof, FStream.read, FStream.good, hng, Bool.false_eq_true,
        if_false, FStream.setstate, FStream.clear] at hread
      cases xf <;> cases xb <;> cases b <;> simp at hread
      all_goals
        obtain ⟨rfl, _, _⟩ := hread
        simp [Read, FStream.eof, FStream.read, FStream.good, FStream.setstate, FStream.clear]

/-- C10 at a sample state: a 5-byte `Read` on a 2-byte file. -/
theorem C10_read_idempotent_witness :
    Read twoByteReader 5 = .ok (twoByteReaderDone, [1, 2], 2)
      ∧ ([1, 2] : List Byte).length < 5
      ∧ Read twoByteReaderDone 640 = .ok (twoByteReaderDone, [], 0) :=
  ⟨rfl, by decide,
    C10_read_idempotent twoByteReader twoByteReaderDone 5 [1, 2] 2 rfl (by decide) 640⟩

/-- C11 fails as stated for `maxBytes = 0`: on the reader constructed from
`sampleWav`, `Read(buf, 0)` returns 0 with no state bit set while the three
sample bytes `[9, 8, 7]` are still ahead of the get position, and the next
`Read(buf, 640)` returns 3. -/
theorem C11_counterexample :
    openSource sampleWav = .ok sampleReader
      ∧ Read sampleReader 0 = .ok (sampleReaderAfterZero, [], 0)
      ∧ sampleReaderAfterZero.m_fs.good = true
      ∧ sampleWav.drop sampleReaderAfterZero.m_fs.pos = [9, 8, 7]
      ∧ Read sampleReaderAfterZero 640 = .ok (sampleReaderDone, [9, 8, 7], 3) :=
  ⟨rfl, rfl, rfl, by decide, rfl⟩

/-- C11, amended: in a reader state reached from a successful construction by
any sequence of `Read` calls and device errors, `Read(buf, maxBytes)` with
`1 ≤ maxBytes < 2^32` does not throw; if it returns 0 and did not end in a read
error (the test of line 50), then no byte of the file is left after the get
position, before and after the call, and every later `Read`, whatever its size
and whatever calls and device errors come in between, returns 0 and leaves the
reader as it is; and when no byte is left the call returns 0. -/
theorem C11_zero_result_means_exhausted (src : List Byte) (r r1 : WavFileReader)
    (evs : List ReaderEvent) (K : Nat)
    (hopen : openSource src = .ok r) (hrun : runEvents r evs = .ok r1)
    (hK1 : 1 ≤ K) (hK2 : K < 2 ^ 32) :
    ∃ r2 data n, Read r1 K = .ok (r2, data, n)
      ∧ (n = 0 → readError r2 = false →
          src.drop r1.m_fs.pos = [] ∧ src.drop r2.m_fs.pos = []
          ∧ ∀ evs2 r3, runEvents r2 evs2 = .ok r3 → ∀ m, Read r3 m = .ok (r3, [], 0))
      ∧ (src.drop r1.m_fs.pos = [] → n = 0) := by
  have hs1 := (runEvents_ok_sof src evs r r1
    (StreamingOrFailed_of_Streaming src r (Streaming_open src r hopen)) hrun).1
  obtain ⟨r2, data, n, hread, hs2, hzero, hconv⟩ := Read_sof src r1 K hs1 hK1 hK2
  refine ⟨r2, data, n, hread, fun hn hre => ?_, hconv⟩
  obtain ⟨h1, h2, heof⟩ := hzero hn hre
  refine ⟨h1, h2, fun evs2 r3 hrun2 m => ?_⟩
  exact Read_of_eof r3 m ((runEvents_ok_sof src evs2 r2 r3 hs2 hrun2).2 heof)

/-- C11 (amended) at `sampleWav`, after one `Read` of 640 bytes that took the
three sample bytes: the next `Read` returns 0 with no read error. -/
theorem C11_zero_result_means_exhausted_witness :
    openSource sampleWav = .ok sampleReader
      ∧ runEvents sampleReader [.read 640] = .ok sampleReaderDone
      ∧ Read sampleReaderDone 640 = .ok (sampleReaderDone, [], 0)
      ∧ readError sampleReaderDone = false
      ∧ ∃ r2 data n, Read sampleReaderDone 640 = .ok (r2, data, n)
          ∧ (n = 0 → readError r2 = false →
              sampleWav.drop sampleReaderDone.m_fs.pos = [] ∧ sampleWav.drop r2.m_fs.pos = []
              ∧ ∀ evs2 r3, runEvents r2 evs2 = .ok r3 → ∀ m, Read r3 m = .ok (r3, [], 0))
          ∧ (sampleWav.drop sampleReaderDone.m_fs.pos = [] → n = 0) :=
  ⟨rfl, rfl, rfl, rfl, C11_zero_result_means_exhausted sampleWav sampleReader sampleReaderDone
    [.read 640] 640 rfl rfl (by decide) (by decide)⟩

/-- C12: on a file of at least 20 bytes that starts with "RIFF", the
constructor throws the "tag WAVE is expected" error (`MalformedHeader`) when
bytes 8..11 are not "WAVE", and otherwise the "tag fmt  is expected" error
(`MalformedHeader`) when bytes 12..15 are not "fmt "; so a reader is only
constructed when both tags are in place. -/
theorem C12_wave_and_fmt_tags (src : List Byte) (hlen : 20 ≤ src.length)
    (hriff : slice src 0 4 = tagRIFF) :
    (slice src 8 4 ≠ tagWAVE → openSource src = .error (.runtime_error .waveExpected))
      ∧ (slice src 8 4 = tagWAVE → slice src 12 4 ≠ tagFmt →
          openSource src = .error (.runtime_error .fmtExpected))
      ∧ Exn.kind (.runtime_error .waveExpected) = some .MalformedHeader
      ∧ Exn.kind (.runtime_error .fmtExpected) = some .MalformedHeader
      ∧ (∀ r, openSource src = .ok r → slice src 8 4 = tagWAVE ∧ slice src 12 4 = tagFmt) := by
  refine ⟨fun hw => ?_, fun hw hf => ?_, rfl, rfl, fun r hr => ?_⟩
  · rw [openSource_eq, headerOutcome_wave src hlen hriff hw]
  · rw [openSource_eq, headerOutcome_fmt src hlen hriff hw hf]
  · obtain ⟨c, hout, _⟩ := openSource_ok src r hr
    obtain ⟨_, hW, hF, _⟩ := headerOutcome_ok_facts src c _ hout
    exact ⟨hW, hF⟩

/-- C12 at `wavxInput` and at `fmtxInput`, the sample file with one letter of
the "WAVE" tag, respectively of the "fmt " tag, changed. -/
theorem C12_wave_and_fmt_tags_witness :
    openSource wavxInput = .error (.runtime_error .waveExpected)
      ∧ openSource fmtxInput = .error (.runtime_error .fmtExpected) :=
  ⟨(C12_wave_and_fmt_tags wavxInput (by decide) (by decide)).1 (by decide),
    (C12_wave_and_fmt_tags fmtxInput (by decide) (by decide)).2.1 (by decide) (by decide)⟩

/-- C13: two files of equal length that agree on bytes 0..3 and from byte 8 on
(so differ at most in bytes 4..7, the RIFF chunk size) give the same outcome of
the constructor: the same exception, or a reader with the same format header
and the same get position; and then every sequence of `Read` calls returns the
same results on both. -/
theorem C13_riff_size_ignored (a b : List Byte) (hlen : a.length = b.length)
    (h4 : a.take 4 = b.take 4) (h8 : a.drop 8 = b.drop 8) :
    openOutcome a = openOutcome b
      ∧ ∀ ra, openSource a = .ok ra →
          ∃ rb, openSource b = .ok rb ∧ rb.m_formatHeader = ra.m_formatHeader
            ∧ rb.m_fs.pos = ra.m_fs.pos
            ∧ (∀ ks, readOuts rb ks = readOuts ra ks)
            ∧ (∀ K fuel, streamAll fuel rb K = streamAll fuel ra K) := by
  have hs : ∀ p n, 8 ≤ p → slice a p n = slice b p n :=
    fun p n hp => slice_of_drop_eq a b 8 p n h8 hp
  have haf : afterFmt a = afterFmt b := by
    rw [afterFmt, afterFmt, hs 16 4 (by omega)]
  have hafge : 36 ≤ afterFmt a := by unfold afterFmt; omega
  have hsk : afterSkip a = afterSkip b := by
    rw [afterSkip, afterSkip, ← haf, hs (afterFmt a + 4) 4 (by omega)]
  have hskge : 8 ≤ afterSkip a := by unfold afterSkip; omega
  have hout : headerOutcome a = headerOutcome b :=
    headerOutcome_congr a b hlen (slice_of_take_eq a b 4 0 4 h4 (by omega))
      (hs 8 4 (by omega)) (hs 12 4 (by omega)) (hs 20 16 (by omega)) haf
      (hs _ 4 (by omega)) (fun _ => ⟨hsk, hs _ 4 hskge⟩)
  refine open_congr a b hout (fun c hdr hc => ?_)
  have hc44 := (headerOutcome_ok a c hdr hc).1
  obtain ⟨d, rfl⟩ := Nat.exists_eq_add_of_le (show 8 ≤ c by omega)
  rw [← List.drop_drop, ← List.drop_drop, h8]

/-- C13 at `sampleWav` and the same file with bytes 4..7 changed. -/
theorem C13_riff_size_ignored_witness :
    openOutcome sampleWav = openOutcome sampleWavOtherSize
      ∧ ∃ rb, openSource sampleWavOtherSize = .ok rb
          ∧ rb.m_formatHeader = sampleReader.m_formatHeader
          ∧ rb.m_fs.pos = sampleReader.m_fs.pos
          ∧ readOuts rb [2, 640, 640] = readOuts sampleReader [2, 640, 640] := by
  have h := C13_riff_size_ignored sampleWav sampleWavOtherSize (by decide) (by decide)
    (by decide)
  obtain ⟨rb, h1, h2, h3, h4, _⟩ := h.2 sampleReader rfl
  exact ⟨h.1, rb, h1, h2, h3, h4 _⟩

/-- C14: whatever the file system holds, the constructor on the empty path
throws `invalid_argument` ("Audio filename is empty") and the record of its
file operations is empty: it calls neither `open` nor `read` nor `seekg`, so
the file system is not touched and no header is parsed. On a non-empty path at
which no file can be opened for reading it throws `invalid_argument` ("Failed to
open the specified audio file.") and the record holds the one call of `open`
and no `read`: no header byte is read. Both are `InvalidArgument`. The recorded
constructor returns what the constructor returns. -/
theorem C14_invalid_argument (files : String → Option (List Byte)) :
    WavFileReader.new files "" = .error (.invalid_argument .filenameEmpty)
      ∧ WavFileReader.newTraced files "" = (.error (.invalid_argument .filenameEmpty), [])
      ∧ Exn.kind (.invalid_argument .filenameEmpty) = some .InvalidArgument
      ∧ (∀ audioFileName, audioFileName.isEmpty = false → files audioFileName = none →
          WavFileReader.new files audioFileName = .error (.invalid_argument .openFailed)
          ∧ WavFileReader.newTraced files audioFileName
              = (.error (.invalid_argument .openFailed), [.openCall audioFileName]))
      ∧ Exn.kind (.invalid_argument .openFailed) = some .InvalidArgument
      ∧ (∀ audioFileName, (WavFileReader.newTraced files audioFileName).1
          = WavFileReader.new files audioFileName) := by
  refine ⟨rfl, rfl, rfl, fun name hname hfile => ⟨?_, ?_⟩, rfl, newTraced_fst files⟩
  · simp only [WavFileReader.new, hname, hfile]
    rfl
  · simp only [WavFileReader.newTraced, FStream.openFileT, hname, hfile]
    rfl

/-- C14 at a file system that holds `sampleWav` at every path, for the empty
path, and at the empty file system, for the path "a.wav". -/
theorem C14_invalid_argument_witness :
    WavFileReader.newTraced sampleFiles "" = (.error (.invalid_argument .filenameEmpty), [])
      ∧ WavFileReader.newTraced noFiles "a.wav"
          = (.error (.invalid_argument .openFailed), [.openCall "a.wav"]) :=
  ⟨(C14_invalid_argument sampleFiles).2.1,
    ((C14_invalid_argument noFiles).2.2.2.1 "a.wav" (by decide) rfl).2⟩

/-- C15: on a stream with no state bit set and at least 8 bytes after the get
position, `ReadChunkTypeAndSize` advances the position by exactly 8, returns the
first 4 bytes as the chunk type and `b0 + 2^8 b1 + 2^16 b2 + 2^24 b3` for the
next four bytes as the chunk size, which is below `2^32`; on a chunk header
that holds the little-endian encoding of `n < 2^32` it returns `n`. -/
theorem C15_chunk_header_decoding (s : FStream) (hgood : s.good = true)
    (hlen : s.pos + 8 ≤ s.src.length) :
    ReadChunkTypeAndSize s
        = .ok ({ s with pos := s.pos + 8, gcount := 4 }, slice s.src s.pos 4,
            byteAt s.src (s.pos + 4) + 2 ^ 8 * byteAt s.src (s.pos + 5)
              + 2 ^ 16 * byteAt s.src (s.pos + 6) + 2 ^ 24 * byteAt s.src (s.pos + 7))
      ∧ byteAt s.src (s.pos + 4) + 2 ^ 8 * byteAt s.src (s.pos + 5)
          + 2 ^ 16 * byteAt s.src (s.pos + 6) + 2 ^ 24 * byteAt s.src (s.pos + 7) < 2 ^ 32
      ∧ (∀ (n : Nat) (tag rest : List Byte), n < 2 ^ 32 → tag.length = 4 →
          ∃ s1, ReadChunkTypeAndSize (FStream.openFile (some (tag ++ le32 n ++ rest)))
            = .ok (s1, tag, n) ∧ s1.pos = 8) := by
  have h0 := byteAt_lt s.src (s.pos + 4)
  have h1 := byteAt_lt s.src (s.pos + 5)
  have h2 := byteAt_lt s.src (s.pos + 6)
  have h3 := byteAt_lt s.src (s.pos + 7)
  refine ⟨?_, by omega, ?_⟩
  · rw [ReadChunkTypeAndSize_good s hgood hlen, chunkSizeOf_eq_load32]
    simp only [load32, byteAt_slice _ _ 4 _ (show 0 < 4 by omega),
      byteAt_slice _ _ 4 _ (show 0 + 1 < 4 by omega),
      byteAt_slice _ _ 4 _ (show 0 + 2 < 4 by omega),
      byteAt_slice _ _ 4 _ (show 0 + 3 < 4 by omega)]
    norm_num [Nat.add_assoc]
  · intro n tag rest hn htag
    have hl : (FStream.openFile (some (tag ++ le32 n ++ rest))).pos + 8
        ≤ (FStream.openFile (some (tag ++ le32 n ++ rest))).src.length := by
      simp [FStream.openFile, htag, length_le32]
      omega
    have hd : (tag ++ le32 n ++ rest).drop 0 = tag ++ (le32 n ++ rest) := by
      simp [List.append_assoc]
    have e1 : slice (tag ++ le32 n ++ rest) 0 4 = tag := slice_of_drop hd htag
    have e2 : slice (tag ++ le32 n ++ rest) (0 + 4) 4 = le32 n :=
      slice_of_drop (drop_step hd htag) (length_le32 n)
    have key := ReadChunkTypeAndSize_good (FStream.openFile (some (tag ++ le32 n ++ rest)))
      rfl hl
    have e3 : chunkSizeOf (slice (FStream.openFile (some (tag ++ le32 n ++ rest))).src
        ((FStream.openFile (some (tag ++ le32 n ++ rest))).pos + 4) 4) = n := by
      show chunkSizeOf (slice (tag ++ le32 n ++ rest) (0 + 4) 4) = n
      rw [e2, chunkSizeOf_le32 n hn]
    have e4 : slice (FStream.openFile (some (tag ++ le32 n ++ rest))).src
        (FStream.openFile (some (tag ++ le32 n ++ rest))).pos 4 = tag := e1
    rw [e3, e4] at key
    exact ⟨_, key, rfl⟩

/-- C15 at the fmt chunk header of `sampleWav`, offset 12. -/
theorem C15_chunk_header_decoding_witness :
    ReadChunkTypeAndSize (hdrStream sampleWav 12 4)
        = .ok (hdrStream sampleWav 20 4, tagFmt, 16) :=
  (C15_chunk_header_decoding (hdrStream sampleWav 12 4) (by decide) (by decide)).1

/-- C16: when the constructor succeeds and leaves the get position at `c`,
then for every buffer size `K` with `1 ≤ K ≤ 2^31 - 1` the loop of
`Read(buf, K)` calls ends within `remaining + 1` calls and delivers all bytes of
the file from offset `c` to its end, whatever size the data chunk declares; and
on every file of the same length that only differs in the four bytes of the
data chunk size field (offsets `c - 4 .. c - 1`) the constructor succeeds with
the same get position and the loop delivers the same bytes. -/
theorem C16_declared_size_no_bound (a : List Byte) (r : WavFileReader) (K fuel : Nat)
    (hopen : openSource a = .ok r) (hK1 : 1 ≤ K) (hK2 : K ≤ 2 ^ 31 - 1)
    (hfuel : a.length - r.m_fs.pos + 1 ≤ fuel) :
    streamAll fuel r K = some (a.drop r.m_fs.pos)
      ∧ ∀ b : List Byte, b.length = a.length →
          b.take (r.m_fs.pos - 4) = a.take (r.m_fs.pos - 4) →
          b.drop r.m_fs.pos = a.drop r.m_fs.pos →
          ∃ rb, openSource b = .ok rb ∧ rb.m_fs.pos = r.m_fs.pos
            ∧ rb.m_formatHeader = r.m_formatHeader
            ∧ streamAll fuel rb K = some (a.drop r.m_fs.pos) := by
  obtain ⟨c, ha, hr, _, hc⟩ := openSource_ok a r hopen
  obtain ⟨fs, hdr⟩ := r
  simp only [WavFileReader.mk.injEq, and_true] at hr
  subst hr
  have hK : K < 2 ^ 32 := by omega
  have h1 : streamAll fuel { m_fs := strStream a c false 4, m_formatHeader := hdr } K
      = some (a.drop c) :=
    streamAll_str a hdr K hK1 hK fuel c false 4 hc (by simp) hfuel
  refine ⟨h1, fun b hlen ht hd => ?_⟩
  have hb := headerOutcome_size_field a b c hdr ha hlen ht
  refine ⟨_, openSource_of_outcome_ok b c hdr hb, rfl, rfl, ?_⟩
  have hfuel2 : b.length - c + 1 ≤ fuel := by rw [hlen]; exact hfuel
  have h2 := streamAll_str b hdr K hK1 hK fuel c false 4 (by rw [hlen]; exact hc) (by simp)
    hfuel2
  rw [h2]
  exact congrArg some hd

/-- C16 at `c2Input`, whose data chunk declares 1 byte and is followed by 2, and
at `sampleWav` against the same file declaring 2 bytes instead of 3. -/
theorem C16_declared_size_no_bound_witness :
    streamAll 3 c2Reader 640 = some [9, 8]
      ∧ ∃ rb, openSource (wavPrefix [0, 0, 0, 0] 16 pcm16k ++ chunk tagData 2 [9, 8, 7]) = .ok rb
          ∧ rb.m_fs.pos = 44
          ∧ streamAll 4 rb 640 = some [9, 8, 7] := by
  have h1 := (C16_declared_size_no_bound c2Input c2Reader 640 3 rfl (by decide) (by decide)
    (by decide)).1
  have h2 := (C16_declared_size_no_bound sampleWav sampleReader 640 4 rfl (by decide)
    (by decide) (by decide)).2 (wavPrefix [0, 0, 0, 0] 16 pcm16k ++ chunk tagData 2 [9, 8, 7])
    (by decide) (by decide) (by decide)
  obtain ⟨rb, hb1, hb2, _, hb4⟩ := h2
  exact ⟨h1, rb, hb1, hb2, hb4⟩

/-- C17: when the fmt chunk header declares a size `s ≤ 16` (0 included), the
header checks still take the 16 bytes at offsets 20..35 as the format header
and look for the next chunk header at offset 36, and the outcome of the
constructor - the exception, or the format header and the get position, and
then the results of every sequence of `Read` calls - is the same as on the
file that declares 16. -/
theorem C17_small_fmt_size (x t : List Byte) (s : Nat) (hx : x.length = 4) (hs : s ≤ 16) :
    afterFmt (fmtSizeWav x s t) = 36
      ∧ openOutcome (fmtSizeWav x s t) = openOutcome (fmtSizeWav x 16 t)
      ∧ ∀ r, openSource (fmtSizeWav x s t) = .ok r →
          r.m_formatHeader = WAVEFORMAT.ofBytes (t.take 16)
            ∧ ∃ r16, openSource (fmtSizeWav x 16 t) = .ok r16
                ∧ r16.m_formatHeader = r.m_formatHeader
                ∧ r16.m_fs.pos = r.m_fs.pos
                ∧ (∀ ks, readOuts r16 ks = readOuts r ks) := by
  obtain ⟨la, ta, sa, da⟩ := fmtSizeWav_facts x t s hx
  obtain ⟨lb, tb, sb, db⟩ := fmtSizeWav_facts x t 16 hx
  have hd : (fmtSizeWav x s t).drop 20 = (fmtSizeWav x 16 t).drop 20 := by rw [da, db]
  have htk : (fmtSizeWav x s t).take 16 = (fmtSizeWav x 16 t).take 16 := by rw [ta, tb]
  have hafa : afterFmt (fmtSizeWav x s t) = 36 := by
    rw [afterFmt, sa, chunkSizeOf_le32 s (by omega)]; omega
  have hafb : afterFmt (fmtSizeWav x 16 t) = 36 := by
    rw [afterFmt, sb, chunkSizeOf_le32_16]
  have hs20 : ∀ p n, 20 ≤ p → slice (fmtSizeWav x s t) p n = slice (fmtSizeWav x 16 t) p n :=
    fun p n hp => slice_of_drop_eq _ _ 20 p n hd hp
  have hs16 : ∀ p n, p + n ≤ 16 →
      slice (fmtSizeWav x s t) p n = slice (fmtSizeWav x 16 t) p n :=
    fun p n hp => slice_of_take_eq _ _ 16 p n htk hp
  have hsk : afterSkip (fmtSizeWav x s t) = afterSkip (fmtSizeWav x 16 t) := by
    rw [afterSkip, afterSkip, hafa, hafb, hs20 _ 4 (by omega)]
  have hskge : 20 ≤ afterSkip (fmtSizeWav x s t) := by
    rw [afterSkip, hafa]; omega
  have hout : headerOutcome (fmtSizeWav x s t) = headerOutcome (fmtSizeWav x 16 t) :=
    headerOutcome_congr _ _ (by rw [la, lb]) (hs16 0 4 (by omega)) (hs16 8 4 (by omega))
      (hs16 12 4 (by omega)) (hs20 20 16 (by omega)) (by rw [hafa, hafb])
      (hs20 _ 4 (by rw [hafa]; omega)) (fun _ => ⟨hsk, hs20 _ 4 hskge⟩)
  have hcong := open_congr (fmtSizeWav x s t) (fmtSizeWav x 16 t) hout (fun c hdr hc => by
    have hc44 := (headerOutcome_ok _ c hdr hc).1
    obtain ⟨d, rfl⟩ := Nat.exists_eq_add_of_le (show 20 ≤ c by omega)
    rw [← List.drop_drop, ← List.drop_drop, hd])
  refine ⟨hafa, hcong.1, fun r hr => ?_⟩
  obtain ⟨c, hc, _⟩ := openSource_ok _ r hr
  have hh := headerOutcome_ok_hdr _ c _ hc
  obtain ⟨r16, h1, h2, h3, h4, _⟩ := hcong.2 r hr
  refine ⟨?_, r16, h1, h2, h3, h4⟩
  rw [hh, slice, da]

/-- C17 at the sample file with the fmt size field set to 0. -/
theorem C17_small_fmt_size_witness :
    afterFmt (fmtSizeWav [0, 0, 0, 0] 0 (sampleWav.drop 20)) = 36
      ∧ openOutcome (fmtSizeWav [0, 0, 0, 0] 0 (sampleWav.drop 20)) = openOutcome sampleWav
      ∧ openOutcome sampleWav = .ok (44, WAVEFORMAT.ofBytes pcm16k) :=
  have h := C17_small_fmt_size [0, 0, 0, 0] (sampleWav.drop 20) 0 (by decide) (by decide)
  ⟨h.1, h.2.1, rfl⟩

/-- C18, evaluated on the code: on the reader constructed from `bigWav`, a
minimal WAV file with `2^31` sample bytes, `Read(buf, 2147483648)` stores
`2147483648` bytes and returns `-2147483648`; for sizes below `2^31` the result
of `Read` in every state reached from a successful construction does lie
between 0 and the size. -/
theorem C18_narrowing_wraps :
    openSource bigWav = .ok bigReader
      ∧ (∃ r1 data n, Read bigReader 2147483648 = .ok (r1, data, n)
          ∧ data.length = 2147483648 ∧ n = -2147483648)
      ∧ ∀ (src : List Byte) (r r1 : WavFileReader) (ks : List Nat)
          (outs : List (List Byte × Int)) (size : Nat),
          openSource src = .ok r → readSeq r ks = .ok (r1, outs) → size < 2 ^ 31 →
          ∃ r2 data n, Read r1 size = .ok (r2, data, n) ∧ 0 ≤ n ∧ n ≤ (size : Int) := by
  have hL : (slice bigWav 44 2147483648).length = 2147483648 := by
    rw [length_slice, length_bigWav]; omega
  refine ⟨(openSource_minimalWav [0, 0, 0, 0] pcm16k bigPayload rfl rfl).1, ?_, ?_⟩
  · refine ⟨WavFileReader.mk (strStream bigWav (44 + (slice bigWav 44 2147483648).length)
        (decide ((slice bigWav 44 2147483648).length < 2147483648))
        (slice bigWav 44 2147483648).length) (WAVEFORMAT.ofBytes pcm16k),
      slice bigWav 44 2147483648, toInt32 (slice bigWav 44 2147483648).length, ?_, hL, ?_⟩
    · show Read (WavFileReader.mk (strStream bigWav 44 false 4) (WAVEFORMAT.ofBytes pcm16k))
        2147483648 = _
      rw [Read_str]; rfl
    · rw [hL]; decide
  · intro src r r1 ks outs size hopen hseq hsize
    exact Read_result_bounds src r1 size
      (readSeq_ok_Streaming src ks r r1 outs (Streaming_open src r hopen) hseq) hsize

end WavReader
